import Mathlib

/-!
Verification development for the cageboard-narrative-vite repository.

The TypeScript sources (`src/engine.ts`, `src/App.tsx`) are embedded
shallowly: JavaScript numbers are modelled as rationals (`ℚ`), with `NaN`
tracked explicitly where the source can produce it; JavaScript objects used
as ordered string-keyed maps become association lists; code that can throw
(the `binValue` call on a missing/empty bin list) returns `Option`.
-/

set_option maxRecDepth 100000

/- The Batteries rational-number operations are `@[irreducible]`; the
concrete runs are settled by evaluation, so restore the default
transparency for them. -/
set_option allowUnsafeReducibility true in
attribute [semireducible] Rat.add Rat.mul Rat.sub Rat.inv Rat.ofScientific

namespace Cageboard

/-- A JavaScript value stored in a parsed CSV row: a finite number, `NaN`
(result of a failed numeric coercion), a string, or `undefined` (a header
field with no matching column). -/
inductive JSVal
  | num (q : ℚ)
  | nan
  | str (s : String)
  | undef
deriving DecidableEq, Repr

/-- A parsed record: ordered mapping from channel name to value
(`Row` in `engine.ts`). -/
abbrev RowT := List (String × JSVal)

/-- Split a character list at every occurrence of a separator character
(the behaviour of JavaScript `split` with a one-character separator);
kernel-reducible replacement for the string-library splitter. -/
def splitChar (sep : Char) : List Char → List (List Char)
  | [] => [[]]
  | c :: cs =>
    let r := splitChar sep cs
    if c = sep then [] :: r
    else
      match r with
      | [] => [[c]]
      | h :: t => (c :: h) :: t

/-- Strip leading and trailing whitespace from a character list
(`String.prototype.trim` on the characters the claims' inputs use). -/
def trimChars (cs : List Char) : List Char :=
  ((cs.dropWhile Char.isWhitespace).reverse.dropWhile Char.isWhitespace).reverse

/-- `trim` on strings, via the character list. -/
def strTrim (s : String) : String := String.mk (trimChars s.data)

/-- `split` on strings with a one-character separator. -/
def strSplitChar (sep : Char) (s : String) : List String :=
  (splitChar sep s.data).map (fun cs => String.mk cs)

/-- `endsWith` on strings, via the character lists. -/
def strEndsWith (s suffix : String) : Bool :=
  decide (suffix.data.length ≤ s.data.length) &&
  decide (s.data.drop (s.data.length - suffix.data.length) = suffix.data)

/-- `startsWith` on strings, via the character lists. -/
def strStartsWith (s pre : String) : Bool :=
  decide (s.data.take pre.data.length = pre.data)

/-- Digits of a decimal numeral folded into a natural number;
`none` when a non-digit character occurs. -/
def decDigits (cs : List Char) : Option Nat :=
  cs.foldl
    (fun acc c => acc.bind (fun n => if c.isDigit then some (n * 10 + (c.toNat - 48)) else none))
    (some 0)

/-- Parse an optional sign, returning the sign as a rational and the rest. -/
def parseSign : List Char → ℚ × List Char
  | '+' :: r => (1, r)
  | '-' :: r => (-1, r)
  | cs => (1, cs)

/-- Modelled from the spec (§4.1, §7 "malformed numeric input"): the
JavaScript `Number(string)` coercion, restricted to finite decimal literals.
A trimmed empty string yields 0; an optionally signed decimal numeral with
optional fraction and exponent yields its exact rational value; anything
else (including the non-finite literals, which no claim's input contains)
yields `none`, standing for `NaN`. -/
def jsNumber (s : String) : Option ℚ :=
  let t := trimChars s.data
  if t = [] then some 0 else
  let cs := t
  let (sgn, cs) := parseSign cs
  let intPart := cs.takeWhile Char.isDigit
  let cs := cs.dropWhile Char.isDigit
  let (fracPart, cs) :=
    match cs with
    | '.' :: r => (r.takeWhile Char.isDigit, r.dropWhile Char.isDigit)
    | _ => ([], cs)
  if intPart = [] ∧ fracPart = [] then none else
  match decDigits intPart, decDigits fracPart with
  | some ip, some fp =>
    let mant : ℚ := sgn * (ip + (fp : ℚ) / (10 : ℚ) ^ fracPart.length)
    match cs with
    | [] => some mant
    | c :: r =>
      if c = 'e' ∨ c = 'E' then
        let (esgnQ, r) := parseSign r
        let eds := r.takeWhile Char.isDigit
        let rest := r.dropWhile Char.isDigit
        match decDigits eds with
        | some ev =>
          if eds = [] ∨ rest ≠ [] then none
          else some (mant * (10 : ℚ) ^ ((if esgnQ = 1 then (ev : ℤ) else -(ev : ℤ))))
        | none => none
      else none
  | _, _ => none

/-- `text.trim().split(/\r?\n/)`: split on newlines, a carriage return
directly before a newline belongs to the separator. -/
def splitLines (t : String) : List String :=
  (strSplitChar '\n' t).map (fun l =>
    if strEndsWith l "\r" then String.mk l.data.dropLast else l)

/-- Set `obj[h] = v` on an ordered string-keyed object: replaces the value
of an existing key in place, appends a new key. -/
def objSet (obj : RowT) (h : String) (v : JSVal) : RowT :=
  if obj.any (fun p => p.1 = h) then
    obj.map (fun p => if p.1 = h then (h, v) else p)
  else obj ++ [(h, v)]

/-- `obj[k]` on a row: `undefined` when the key is absent. -/
def jsGet (r : RowT) (k : String) : JSVal :=
  match r.lookup k with
  | some v => v
  | none => JSVal.undef

/-- `Number(v) || 0`: numeric coercion of a stored value with `NaN`
(and the unreachable non-finite cases) collapsed to 0, as the engine does
everywhere it reads a channel. -/
def toQ0 : JSVal → ℚ
  | JSVal.num q => q
  | JSVal.nan => 0
  | JSVal.str s => (jsNumber s).getD 0
  | JSVal.undef => 0

/-- `parseCSV` from `engine.ts`. -/
def parseCSV (text : String) : List RowT :=
  let lines := splitLines (strTrim text)
  let headers := (strSplitChar ',' (lines.headD "")).map strTrim
  let hasHeader := headers.any (fun h => (jsNumber h).isNone ∧ 0 < h.data.length)
  if ¬hasHeader then
    lines.map (fun ln =>
      [("value", match jsNumber (strTrim ln) with
                 | some q => JSVal.num q
                 | none => JSVal.nan)])
  else
    (lines.drop 1).map (fun ln =>
      let cols := (strSplitChar ',' ln).map strTrim
      headers.enum.foldl (fun obj p =>
        let v : JSVal :=
          match cols.get? p.1 with
          | none => JSVal.undef
          | some c =>
            match jsNumber c with
            | some q => JSVal.num q
            | none => JSVal.str c
        objSet obj p.2 v) [])

/-- One `{id, max}` bin of a codebook bin list. -/
structure Bin where
  id : String
  max : ℚ
deriving DecidableEq, Repr

/-- One named categorical-tag ("NCV") rule: a source signal path and an
ordered first-match-wins list of `(sourceTagValue, outputLabel)` pairs. -/
structure NcvRule where
  src : String
  map : List (String × String)
deriving DecidableEq, Repr

/-- The closed expression forms of a threshold rule condition. Modelled
from the spec (§6, §9): the source evaluates the configured expression
string over a fixed binding table with JavaScript `Function`; the spec
directs re-implementations to a tagged expression tree over the same
bindings, which is what we embed. -/
inductive CbExpr
  | eqSig (sig : String) (lit : String)
  | gtSig (sig : String) (c : ℚ)
  | ltSig (sig : String) (c : ℚ)
  | andE (a b : CbExpr)
  | orE (a b : CbExpr)
deriving DecidableEq, Repr

/-- One `functions.thresholds` rule. -/
structure ThresholdRule where
  cond : CbExpr
  thenFns : List String
deriving DecidableEq, Repr

/-- The two configured window sizes. -/
structure Windows where
  trend : Int
  variance : Int
deriving DecidableEq, Repr

/-- `Codebook` from `engine.ts`. -/
structure Codebook where
  entity : String
  channels : List String
  windows : Windows
  bins : List (String × List Bin)
  ncv : List (String × NcvRule)
  thresholds : List ThresholdRule
deriving DecidableEq, Repr

/-- `binValue` from `engine.ts`: first bin whose `max` is ≥ the value, else
the last bin. On an empty bin list the source throws (`bins[-1].id` is a
`TypeError`), modelled as `none`. -/
def binValue (bins : List Bin) (v : ℚ) : Option String :=
  match bins.find? (fun b => v ≤ b.max) with
  | some b => some b.id
  | none => (bins.getLast?).map Bin.id

/-- `rolling` from `engine.ts`: (mean, population variance, trend) of the
coerced values of `rows[max(0, idx-n+1) .. idx]` at channel `key`.
In the rational model a division by zero (empty window, only reachable when
`windows.trend ≤ 0`) yields 0 where JavaScript yields `NaN`; no claim's
input reaches it. -/
def rolling (rows : List RowT) (idx : Nat) (n : Int) (key : String) : ℚ × ℚ × ℚ :=
  let start : Int := max 0 ((idx : Int) - n + 1)
  let arr := ((rows.drop start.toNat).take (idx + 1 - start.toNat)).map
    (fun r => toQ0 (jsGet r key))
  let mean := arr.sum / (arr.length : ℚ)
  let variance := (arr.map (fun b => (b - mean) * (b - mean))).sum / (arr.length : ℚ)
  let trend := if 1 < arr.length then (arr.getLast?).getD 0 - arr.headD 0 else 0
  (mean, variance, trend)

/-- The derived per-record symbolic state (`s` in `computeStates`). -/
structure St where
  raw : RowT
  bins : List (String × String)
  trend : List (String × ℚ)
  var : List (String × ℚ)
  setpoint : List (String × String)
  relative : List (String × String)
  NCV : List (String × Option String)
deriving DecidableEq, Repr

/-- `undefined < c` is false in JavaScript; a present value compares
numerically. -/
def jsLtOpt (v : Option ℚ) (c : ℚ) : Bool :=
  match v with
  | some q => q < c
  | none => false

/-- `undefined > c` is false in JavaScript; a present value compares
numerically. -/
def jsGtOpt (v : Option ℚ) (c : ℚ) : Bool :=
  match v with
  | some q => c < q
  | none => false

/-- NCV tag resolution for one rule source path (the `if`/`else if` chain
inside `computeStates`); `none` is the JavaScript `undefined` tag. -/
def resolveNcvTag (s : St) (src : String) : Option String :=
  if strEndsWith src ".var" then
    let ch := (strSplitChar '.' src).headD ""
    let v := s.var.lookup ch
    some (if jsLtOpt v (1/10000) then "low" else if jsLtOpt v (1/200) then "med" else "high")
  else if strEndsWith src ".trend" then
    let ch := (strSplitChar '.' src).headD ""
    let v := s.trend.lookup ch
    some (if jsGtOpt v (1/100) then "up" else if jsLtOpt v (-(1/100)) then "down" else "flat")
  else if strStartsWith src "setpoint." then
    ((strSplitChar '.' src).get? 1).bind (fun k => s.setpoint.lookup k)
  else if strStartsWith src "relative." then
    ((strSplitChar '.' src).get? 1).bind (fun k => s.relative.lookup k)
  else if strEndsWith src ".bin" then
    let ch := (strSplitChar '.' src).headD ""
    s.bins.lookup ch
  else some "flat"

/-- Resolve one NCV rule: resolved source value looked up in the ordered
pair list, first match wins, no match passes the resolved tag through. -/
def resolveNcv (s : St) (rule : NcvRule) : Option String :=
  let tag := resolveNcvTag s rule.src
  match tag with
  | some t =>
    match rule.map.find? (fun p => p.1 = t) with
    | some p => some p.2
    | none => some t
  | none => none

/-- The per-channel portion of `computeStates`: bins, rolling trend and
rolling variance for every tracked channel, in channel order. `none` when
`codebook.bins[ch]` is absent or empty for some tracked channel (the
source throws there). -/
def channelData (rows : List RowT) (win : Int) (cb : Codebook) (idx : Nat) (r : RowT) :
    Option (List (String × String) × List (String × ℚ) × List (String × ℚ)) :=
  cb.channels.foldlM (fun acc ch => do
    let bl ← cb.bins.lookup ch
    let bid ← binValue bl (toQ0 (jsGet r ch))
    let roll := rolling rows idx win ch
    pure (acc.1 ++ [(ch, bid)], acc.2.1 ++ [(ch, roll.2.2)], acc.2.2 ++ [(ch, roll.2.1)]))
    ([], [], [])

/-- `computeStates` from `engine.ts`. `none` models the `TypeError` thrown
when a tracked channel has no (or an empty) bin list. -/
def computeStates (rows : List RowT) (cb : Codebook) : Option (List St) :=
  let win := cb.windows.trend
  rows.enum.mapM (fun p => do
    let idx := p.1
    let r := p.2
    let cd ← channelData rows win cb idx r
    let binsMap := cd.1
    let trendMap := cd.2.1
    let varMap := cd.2.2
    let setpoint : List (String × String) :=
      match binsMap.lookup "temp" with
      | some b => [("temp", b)]
      | none => []
    let relative : List (String × String) :=
      if (r.any (fun p => p.1 = "lum")) ∧ (r.any (fun p => p.1 = "transpiration")) then
        let l := toQ0 (jsGet r "lum")
        let tr := toQ0 (jsGet r "transpiration")
        [("lum_vs_transpiration",
          if (1/10 : ℚ) < l - tr then "lum_dominant"
          else if (1/10 : ℚ) < tr - l then "transpiration_dominant"
          else "balanced")]
      else []
    let base : St :=
      { raw := r, bins := binsMap, trend := trendMap, var := varMap,
        setpoint := setpoint, relative := relative, NCV := [] }
    let ncvMap := cb.ncv.map (fun kr => (kr.1, resolveNcv base kr.2))
    pure { base with NCV := ncvMap })

/-- The fixed binding table of `selectFunctions` (`engine.ts`): the eight
dotted signal names it exposes to threshold expressions. String-valued
bins and numeric trends are kept apart; `none` is an absent binding. -/
def envStr (st : St) : String → Option String
  | "temp.bin" => st.bins.lookup "temp"
  | "lum.bin" => st.bins.lookup "lum"
  | "seismic.bin" => st.bins.lookup "seismic"
  | "tilt.bin" => st.bins.lookup "tilt"
  | "gas_flux.bin" => st.bins.lookup "gas_flux"
  | _ => none

/-- Numeric bindings of the `selectFunctions` environment. -/
def envNum (st : St) : String → Option ℚ
  | "bio_potential.trend" => st.trend.lookup "bio_potential"
  | "lum.trend" => st.trend.lookup "lum"
  | "seismic.trend" => st.trend.lookup "seismic"
  | _ => none

/-- Evaluate a threshold condition against the fixed binding table;
comparisons against an absent binding are false, as in JavaScript. -/
def evalCbExpr (st : St) : CbExpr → Bool
  | CbExpr.eqSig sig lit => (envStr st sig) = some lit
  | CbExpr.gtSig sig c => jsGtOpt (envNum st sig) c
  | CbExpr.ltSig sig c => jsLtOpt (envNum st sig) c
  | CbExpr.andE a b => evalCbExpr st a && evalCbExpr st b
  | CbExpr.orE a b => evalCbExpr st a || evalCbExpr st b

/-- `selectFunctions` from `engine.ts`: the function identifiers of every
threshold rule whose condition holds; a rule that fails to evaluate
contributes nothing (here conditions are total, so nothing is skipped). -/
def selectFunctions (st : St) (cb : Codebook) : List String :=
  cb.thresholds.flatMap (fun rule => if evalCbExpr st rule.cond then rule.thenFns else [])

/-- The fixed closed set of narrative regimes (`App.tsx`). -/
inductive Regime
  | horror
  | trickster
  | thriller
  | fairytale
  | shamanic
deriving DecidableEq, Repr, Fintype

/-- `REGIME_LIST`: the fixed declaration order. -/
def REGIME_LIST : List Regime :=
  [Regime.horror, Regime.trickster, Regime.thriller, Regime.fairytale, Regime.shamanic]

/-- `ALLOWED_BRIDGES`: the fixed allow-list of regime transitions, keyed by
the ordered pair. -/
def ALLOWED_BRIDGES : List ((Regime × Regime) × String) :=
  [((Regime.horror, Regime.shamanic), "bridge.underworld_mouth"),
   ((Regime.thriller, Regime.trickster), "bridge.unreliable_ally"),
   ((Regime.fairytale, Regime.horror), "bridge.taboo_broken"),
   ((Regime.trickster, Regime.shamanic), "bridge.taboo_place_opens"),
   ((Regime.thriller, Regime.horror), "bridge.dark_turn"),
   ((Regime.horror, Regime.thriller), "bridge.fight_or_flee"),
   ((Regime.fairytale, Regime.trickster), "bridge.rule_bent"),
   ((Regime.trickster, Regime.fairytale), "bridge.bargain_matures")]

/-- The six named beat categories of one regime's palette. -/
structure Palette where
  movement : List String
  environment : List String
  challenge : List String
  support : List String
  maintenance : List String
  reflection : List String
deriving DecidableEq, Repr

/-- `PALETTE`: the beat palette per regime. -/
def PALETTE : Regime → Palette
  | Regime.horror =>
    { movement := ["fn.road_walk", "fn.trail_cut", "fn.descend"],
      environment := ["fn.noise_far", "fn.light_fails", "fn.smell_metallic"],
      challenge := ["fn.stalked", "fn.wrong_place", "fn.near_miss"],
      support := ["fn.find_marker"],
      maintenance := ["fn.repack", "fn.eat"],
      reflection := ["fn.breath_held"] }
  | Regime.trickster =>
    { movement := ["fn.road_walk", "fn.trail_cut", "fn.crossing"],
      environment := ["fn.sign_confusing", "fn.double_identity"],
      challenge := ["fn.misdirection", "fn.lost_item", "fn.bad_bargain"],
      support := ["fn.find_marker", "fn.stranger_hint"],
      maintenance := ["fn.repack", "fn.eat"],
      reflection := ["fn.joke_turns"] }
  | Regime.thriller =>
    { movement := ["fn.ascend", "fn.descend", "fn.road_walk"],
      environment := ["fn.noise_close", "fn.weather_shift", "fn.light_change"],
      challenge := ["fn.chase", "fn.obstacle", "fn.cross_danger"],
      support := ["fn.aid_sign", "fn.memory_map"],
      maintenance := ["fn.repair_boot", "fn.eat"],
      reflection := ["fn.count_distance"] }
  | Regime.fairytale =>
    { movement := ["fn.trail_cut", "fn.crossing", "fn.road_walk"],
      environment := ["fn.feast_smell", "fn.lanterns", "fn.strange_music"],
      challenge := ["fn.rule_presented", "fn.giant_block", "fn.trial_riddle"],
      support := ["fn.helper_offers", "fn.gift_small"],
      maintenance := ["fn.repack", "fn.eat"],
      reflection := ["fn.promise_made"] }
  | Regime.shamanic =>
    { movement := ["fn.descend", "fn.crossing", "fn.road_walk"],
      environment := ["fn.breath_current", "fn.stone_names", "fn.bone_orchard"],
      challenge := ["fn.ordeal_dark", "fn.name_turns", "fn.river_black"],
      support := ["fn.guide_sign", "fn.memory_map"],
      maintenance := ["fn.repack", "fn.eat"],
      reflection := ["fn.naming", "fn.pattern_seen"] }

/-- `BRIDGE_FNS`: the literal sentence for each bridge identifier
(an unknown identifier has no sentence; unreachable from the allow-list). -/
def BRIDGE_FNS : String → String
  | "bridge.underworld_mouth" =>
    "A seam opens in the hillside, breathing cold air. They look at each other and step in."
  | "bridge.unreliable_ally" =>
    "The helpful voice on the radio crackles and contradicts itself. They realize it has been leading them in circles."
  | "bridge.taboo_broken" =>
    "The feast’s host asks them to eat in silence; Jill laughs. Every lantern goes out at once."
  | "bridge.taboo_place_opens" =>
    "The prank goes too far; a door in the ground that was never there swings open."
  | "bridge.dark_turn" =>
    "The shortcut isn’t empty. Shapes move between the columns; they pick up speed."
  | "bridge.fight_or_flee" =>
    "The stalker shows himself at last; they sprint and do not look back."
  | "bridge.rule_bent" =>
    "The path sign points one way, but the small footprints go the other."
  | "bridge.bargain_matures" =>
    "The trick they played earlier finds its balance; a basket sits waiting with their lost map inside."
  | _ => ""

/-- `SURFACES_FALLBACK`: the local stock sentences per beat identifier. -/
def SURFACES_FALLBACK : String → List String
  | "fn.road_walk" =>
    ["They follow the service road skirting the river.",
     "They stay on the hardpack, keeping the turbines behind them."]
  | "fn.trail_cut" =>
    ["They leave the road and step onto a narrow trail through fir and alder.",
     "They slip past the fence and take a maintenance path toward higher ground."]
  | "fn.ascend" => ["The grade steepens. They take it in short, even climbs."]
  | "fn.descend" => ["The trail drops into a draw; rocks slide underfoot."]
  | "fn.crossing" => ["They wade a cold braid of the river, boots slung by their laces."]
  | "fn.noise_far" => ["Somewhere upslope, something moves when they move; then stops."]
  | "fn.noise_close" => ["A clatter nearby makes them freeze. When it quiets, they move again."]
  | "fn.light_fails" => ["Cloud cover thickens. Flashlights make narrow cones in the trees."]
  | "fn.light_change" => ["The sun slips from behind cloud; the path brightens in patches."]
  | "fn.smell_metallic" => ["The air smells metallic, as if the dam were still inside the forest."]
  | "fn.sign_confusing" => ["Two arrows on the same post point opposite directions."]
  | "fn.double_identity" => ["They greet a traveler who later passes them again from the wrong direction."]
  | "fn.weather_shift" => ["Rain starts and stops within a minute. A second front is coming."]
  | "fn.feast_smell" => ["They smell bread and smoke where no houses stand."]
  | "fn.lanterns" => ["Lanterns swing from low branches, lit from no source they can see."]
  | "fn.strange_music" => ["Music they cannot place drifts over the creek."]
  | "fn.breath_current" => ["The tunnel exhales; air moves toward darkness and they follow."]
  | "fn.stone_names" => ["Jane names the stones as they pass; Jill repeats the names."]
  | "fn.bone_orchard" => ["White shapes stand in a grove. They do not touch them."]
  | "fn.stalked" => ["They are being matched step for step. When they stop, it stops."]
  | "fn.wrong_place" => ["They come into a clearing that should not be here; every path seems new."]
  | "fn.near_miss" => ["Footing goes, but they catch a trunk and hold until the shake passes."]
  | "fn.misdirection" => ["A friendly voice points them to a shortcut that loops back on itself."]
  | "fn.lost_item" => ["They check their packs and find the compass missing."]
  | "fn.bad_bargain" => ["A trader wants too much for a hint. They walk on."]
  | "fn.chase" => ["Movement behind becomes pursuit. They run until their breath burns."]
  | "fn.obstacle" => ["A fallen tree blocks the way; they crawl and pass packs across."]
  | "fn.cross_danger" => ["They cross a spillway grate one by one, each step sounding hollow."]
  | "fn.rule_presented" => ["A sign reads: “Do not speak while the bridge is crossed.”"]
  | "fn.giant_block" => ["A boulder, too round for this valley, sits squarely on the trail."]
  | "fn.trial_riddle" => ["A child asks a question that isn’t a question. They answer with a nod."]
  | "fn.ordeal_dark" => ["Without lights, they count steps and turns; the dark equals them."]
  | "fn.name_turns" => ["A name they used earlier won’t work now; they try another."]
  | "fn.river_black" => ["The river here is black and moving fast; they cross in silence."]
  | "fn.find_marker" => ["At a fork, a survey marker points east. They mark the map and continue."]
  | "fn.aid_sign" => ["Fresh paint on an old post shows an arrow where none had been before."]
  | "fn.memory_map" => ["Jill reconstructs the creek bends from memory, and they correct course."]
  | "fn.helper_offers" => ["An old woman offers a pebble “for finding your way back.” They keep it."]
  | "fn.gift_small" => ["Under a flat stone, someone left a biscuit wrapped in paper."]
  | "fn.guide_sign" => ["A white moth waits at the mouth of the tunnel, wings like a small flag."]
  | "fn.stranger_hint" => ["“Keep left at the fork,” a man under the bridge says."]
  | "fn.repair_boot" => ["They tape a frayed strap and change socks."]
  | "fn.eat" => ["They split an apple and drink from the thermos."]
  | "fn.repack" => ["They redistribute weight between the packs and set off again."]
  | "fn.breath_held" => ["They make a stretch without speaking, counting breaths."]
  | "fn.joke_turns" => ["A joke from earlier lands wrong; they let it go."]
  | "fn.count_distance" => ["They estimate they’ve made four more kilometers since the dam."]
  | "fn.promise_made" => ["They agree not to enter any building with a second story."]
  | "fn.naming" => ["They repeat the names for the turns until the names feel right."]
  | "fn.pattern_seen" => ["The path repeats a pattern of three rises and a bend; they trust it."]
  | "fn.call" => ["They shoulder their packs and check the map. The road runs east along the river."]
  | "fn.threshold_crossing" =>
    ["They leave the access road beyond the fence line. The plant hum fades behind them."]
  | "fn.return" => ["A lane appears between trees. They walk the last hundred meters without a word."]
  | _ => []

/-- Context-tag map handed to the surface lookup (an NCV object). -/
abbrev NCVMap := List (String × Option String)

/-- `NCV?.k`: look a tag up in an NCV map; an entry stored as JavaScript
`undefined` and an absent entry are both `none`. -/
def ncvGet (m : NCVMap) (k : String) : Option String :=
  (m.lookup k).bind id

/-- One entry of the external `surfaces.json` table. -/
structure SurfaceEntry where
  function : String
  mood : Option String
  pov : Option String
  time : Option String
  terrain : Option String
  text : String
deriving DecidableEq, Repr

/-- Modelled from the spec: `surfaces.json` (the Surface Resolver's keyed
sentence table) is an external collaborator absent from the sources; the
contract (§6) only fixes the query and fallback order and tolerates an
empty table, so it is modelled empty and every resolution falls through to
the in-source `SURFACES_FALLBACK` stock. -/
def surfacesJson : List SurfaceEntry := []

/-- A candidate's binding matches when it is absent (wildcard) or equal to
the queried tag (`!s.binds.mood || s.binds.mood === NCV?.mood`). -/
def bindMatches (bind : Option String) (v : Option String) : Bool :=
  match bind with
  | none => true
  | some b => v = some b

/-- `pickSurfaceText` from `App.tsx`: exact/partial tag match over the
external table, then the local stock's first sentence, then any entry for
the identifier, then the empty string. -/
def pickSurfaceText (fn : String) (ncv : NCVMap) : String :=
  let all := surfacesJson
  let candidates := all.filter (fun s =>
    s.function = fn ∧
    bindMatches s.mood (ncvGet ncv "mood") ∧
    bindMatches s.pov (ncvGet ncv "pov") ∧
    bindMatches s.time (ncvGet ncv "time") ∧
    bindMatches s.terrain (ncvGet ncv "terrain"))
  match candidates.head? with
  | some c => c.text
  | none =>
    match (SURFACES_FALLBACK fn).head? with
    | some t => t
    | none =>
      match all.find? (fun s => s.function = fn) with
      | some s => s.text
      | none => ""

/-- Precondition and effect tokens of one beat (`BEAT_RULES`); a beat with
no entry behaves as `{needs := [], gives := []}` exactly as the source's
`BEAT_RULES[fn]?.needs`/`?.gives` lookups do. -/
structure BeatRule where
  needs : List String
  gives : List String
deriving DecidableEq, Repr

/-- `BEAT_RULES` from `App.tsx`. -/
def beatRule : String → BeatRule
  | "fn.trail_cut" => ⟨["left_road"], ["in_trail"]⟩
  | "fn.road_walk" => ⟨[], ["on_road"]⟩
  | "fn.crossing" => ⟨["in_trail"], ["wet"]⟩
  | "fn.ascend" => ⟨["in_trail"], ["high_ground"]⟩
  | "fn.descend" => ⟨["in_trail"], []⟩
  | "fn.light_fails" => ⟨[], ["low_light"]⟩
  | "fn.noise_close" => ⟨[], ["alert"]⟩
  | "fn.stalked" => ⟨["low_light"], ["pursued"]⟩
  | "fn.obstacle" => ⟨["in_trail"], ["detour"]⟩
  | "fn.cross_danger" => ⟨["wet"], ["shaken"]⟩
  | "fn.ordeal_dark" => ⟨["low_light"], ["ordeal"]⟩
  | "fn.find_marker" => ⟨["in_trail"], ["oriented"]⟩
  | "fn.repair_boot" => ⟨["shaken"], ["steadied"]⟩
  | "fn.eat" => ⟨[], ["fed"]⟩
  | "fn.repack" => ⟨[], ["ordered"]⟩
  | "fn.call" => ⟨[], ["left_road"]⟩
  | "fn.threshold_crossing" => ⟨["on_road"], ["in_trail"]⟩
  | "fn.return" => ⟨[], ["approach"]⟩
  | _ => ⟨[], []⟩

/-- `hasAll` from `App.tsx`: every required token is present. -/
def hasAll (tokens : List String) (needs : List String) : Bool :=
  needs.all (fun t => tokens.contains t)

/-- `applyGives` from `App.tsx`: add each granted token to the set
(`Set.add`: insertion-ordered, duplicates ignored). -/
def applyGives (tokens : List String) (gives : List String) : List String :=
  gives.foldl (fun tk g => if tk.contains g then tk else tk ++ [g]) tokens

/-- A regime weight vector (`Weights` in `App.tsx`); the source spreads
defaults of 0 over a partial object, its callers always supply all five. -/
structure Weights where
  horror : ℚ
  trickster : ℚ
  thriller : ℚ
  fairytale : ℚ
  shamanic : ℚ
deriving DecidableEq, Repr

/-- `w[k]` for a regime name. -/
def Weights.get (w : Weights) : Regime → ℚ
  | Regime.horror => w.horror
  | Regime.trickster => w.trickster
  | Regime.thriller => w.thriller
  | Regime.fairytale => w.fairytale
  | Regime.shamanic => w.shamanic

/-- Total mass of a weight vector. -/
def sumWeights (w : Weights) : ℚ :=
  w.horror + w.trickster + w.thriller + w.fairytale + w.shamanic

/-- The uniform fallback vector (0.2 per regime). -/
def uniformWeights : Weights := ⟨1/5, 1/5, 1/5, 1/5, 1/5⟩

/-- `normalizeWeights` from `App.tsx`: uniform fallback when the total mass
is ≤ 0, otherwise each weight divided by the total. -/
def normalizeWeights (w : Weights) : Weights :=
  let sum := sumWeights w
  if sum ≤ 0 then uniformWeights
  else ⟨w.horror / sum, w.trickster / sum, w.thriller / sum, w.fairytale / sum, w.shamanic / sum⟩

/-- `instantRegimeWeights` from `App.tsx`: the instantaneous additive
contributions per regime, then normalization. -/
def instantRegimeWeights (s : St) : Weights :=
  let varSeis := (s.var.lookup "seismic").getD 0
  let varTilt := (s.var.lookup "tilt").getD 0
  let trendSeis := (s.trend.lookup "seismic").getD 0
  let tiltBin := (s.bins.lookup "tilt").getD ""
  let tempBin := (s.bins.lookup "temp").getD ""
  let mood := (ncvGet s.NCV "mood").getD ""
  let pace := (ncvGet s.NCV "pace").getD ""
  let horror :=
    (if (3/500 : ℚ) < varSeis then (1 : ℚ) else 0) +
    (if tempBin = "cool" then (3/10 : ℚ) else 0) +
    (if mood = "strained" then (1/2 : ℚ) else 0)
  let trickster :=
    (if (1/1250 : ℚ) < varTilt then (3/5 : ℚ) else 0) +
    (if pace = "steady" then (3/10 : ℚ) else 0) +
    (if tiltBin = "shift" then (3/10 : ℚ) else 0)
  let thriller :=
    (if (1/250 : ℚ) < varSeis then (7/10 : ℚ) else 0) +
    (if (1/100 : ℚ) < trendSeis then (1/2 : ℚ) else 0) +
    (if pace = "fast" then (3/10 : ℚ) else 0)
  let fairytale :=
    (if varSeis < (1/500 : ℚ) then (7/10 : ℚ) else 0) +
    (if pace = "calm" then (3/10 : ℚ) else 0)
  let shamanic :=
    (if tiltBin = "shear" then (7/10 : ℚ) else 0) +
    (if tempBin = "warm" then (1/5 : ℚ) else (1/10 : ℚ)) +
    (if trendSeis < -(1/100 : ℚ) then (3/10 : ℚ) else 0)
  normalizeWeights ⟨horror, trickster, thriller, fairytale, shamanic⟩

/-- `mixWeights` from `App.tsx`: exponential smoothing then
re-normalization. -/
def mixWeights (prev now : Weights) (inertia : ℚ) : Weights :=
  normalizeWeights
    ⟨inertia * prev.horror + (1 - inertia) * now.horror,
     inertia * prev.trickster + (1 - inertia) * now.trickster,
     inertia * prev.thriller + (1 - inertia) * now.thriller,
     inertia * prev.fairytale + (1 - inertia) * now.fairytale,
     inertia * prev.shamanic + (1 - inertia) * now.shamanic⟩

/-- `topRegime` from `App.tsx`: the regime of maximum weight; a strict
comparison means ties resolve to the earlier name in declaration order. -/
def topRegime (w : Weights) : Regime :=
  REGIME_LIST.foldl (fun best k => if w.get best < w.get k then k else best) Regime.horror

/-- `allowedBridge` from `App.tsx`: `null` on a self-transition, else the
allow-list lookup of the ordered pair. -/
def allowedBridge (p n : Regime) : Option String :=
  if p = n then none else ALLOWED_BRIDGES.lookup (p, n)

/-- The six palette category lists of a regime concatenated in the order
the planner spreads them. -/
def paletteUnion (r : Regime) : List String :=
  (PALETTE r).movement ++ (PALETTE r).environment ++ (PALETTE r).challenge ++
  (PALETTE r).support ++ (PALETTE r).maintenance ++ (PALETTE r).reflection

/-- The palette membership test of `scoreBeat` (six `includes` checks). -/
def inPaletteB (r : Regime) (fn : String) : Bool :=
  (PALETTE r).movement.contains fn || (PALETTE r).environment.contains fn ||
  (PALETTE r).challenge.contains fn || (PALETTE r).support.contains fn ||
  (PALETTE r).maintenance.contains fn || (PALETTE r).reflection.contains fn

/-- `scoreBeat` from `App.tsx`: base 1.0 in palette, else 0.2, plus the
hard-coded data-coupled bonus increments. -/
def scoreBeat (fn : String) (regime : Regime) (s : St) : ℚ :=
  let inPalette := inPaletteB regime fn
  let score : ℚ := if inPalette then 1 else 1/5
  let vSeis := (s.var.lookup "seismic").getD 0
  let vTilt := (s.var.lookup "tilt").getD 0
  let trendSeis := (s.trend.lookup "seismic").getD 0
  let lowLight := ncvGet s.NCV "time" = some "dusk" ∨ ncvGet s.NCV "time" = some "night"
  let score := if fn = "fn.stalked" then score + (if lowLight then 3/5 else 1/10) else score
  let score := if fn = "fn.cross_danger" then score + (if (1/250 : ℚ) < vSeis then 1/2 else 0) else score
  let score := if fn = "fn.ascend" then score + (if (1/1000 : ℚ) < vTilt then 2/5 else 0) else score
  let score := if fn = "fn.descend" then score + (if trendSeis < -(1/100 : ℚ) then 3/10 else 0) else score
  let score := if fn = "fn.find_marker" then score + (if s.bins.lookup "tilt" = some "shift" then 3/10 else 0) else score
  let score := if fn = "fn.ordeal_dark" then score + (if lowLight ∧ (3/500 : ℚ) < vSeis then 3/5 else 0) else score
  score

/-- `Array.from(new Set(..))`: deduplicate keeping first occurrences. -/
def dedupFirst (l : List String) : List String :=
  (l.foldl (fun acc x => if acc.contains x then acc else acc ++ [x]) [])

/-- `list.slice(-4)`: the last `n` elements. -/
def lastN (n : Nat) (l : List String) : List String :=
  l.drop (l.length - n)

/-- Stable insertion of a scored beat into a descending-sorted list: placed
after every earlier element of greater-or-equal score, mirroring the
stable `sort((a, b) => b.sc - a.sc)`. -/
def insertScored (x : String × ℚ) : List (String × ℚ) → List (String × ℚ)
  | [] => [x]
  | y :: ys => if x.2 ≤ y.2 then y :: insertScored x ys else x :: y :: ys

/-- Stable sort of scored beats by score, descending. Stable sorting under
the total preorder of the comparator determines the same list as the
source's stable `Array.prototype.sort`. -/
def sortScored (l : List (String × ℚ)) : List (String × ℚ) :=
  l.foldl (fun acc x => insertScored x acc) []

/-- The greedy emission loop of `chooseBeatsPlanned`: take scored beats in
order until `want` are emitted, applying each beat's effect tokens to the
token set as it is emitted. -/
def chooseGo (want : Nat) : List (String × ℚ) → List String → List String →
    List String × List String
  | [], out, tk => (out, tk)
  | x :: rest, out, tk =>
    if want ≤ out.length then (out, tk)
    else chooseGo want rest (out ++ [x.1]) (applyGives tk (beatRule x.1).gives)

/-- `chooseBeatsPlanned` from `App.tsx`: candidate pool from the regime's
palette, feasibility filter against the current token set, scoring with the
recency cooldown, stable descending sort, then greedy emission. Returns the
emitted beats and the mutated token set. -/
def chooseBeatsPlanned (regime : Regime) (s : St) (tokens : List String)
    (recentBeats : List String) (want : Nat) : List String × List String :=
  let allBeats := dedupFirst (paletteUnion regime)
  let feasible := allBeats.filter (fun fn => hasAll tokens (beatRule fn).needs)
  let scored := sortScored (feasible.map (fun fn =>
    let sc := scoreBeat fn regime s
    (fn, if (lastN 4 recentBeats).contains fn then sc * (2/5) else sc)))
  chooseGo want scored [] tokens

/-- The side-quest graph nodes (`NodeId` in `App.tsx`). -/
inductive SQNode
  | threshold
  | trials
  | inmost
  | boon
  | exitN
deriving DecidableEq, Repr

/-- `SQ_EDGES`: explicit outgoing edge lists. -/
def sqEdges : SQNode → List SQNode
  | SQNode.threshold => [SQNode.trials]
  | SQNode.trials => [SQNode.trials, SQNode.inmost]
  | SQNode.inmost => [SQNode.boon]
  | SQNode.boon => [SQNode.exitN]
  | SQNode.exitN => []

/-- The traversal loop of `pickSideQuestPath`, with fuel `steps - i`. -/
def sqGo (sList : List St) : Nat → Nat → SQNode → List SQNode
  | 0, _, _ => []
  | fuel + 1, i, node =>
    if node = SQNode.exitN then [] else
    let s := sList.get? (min i (sList.length - 1))
    let v := (s.bind (fun st => st.var.lookup "seismic")).getD 0
    let next :=
      if node = SQNode.trials ∧ (3/500 : ℚ) < v then SQNode.inmost
      else (sqEdges node).headD SQNode.exitN
    node :: sqGo sList fuel (i + 1) next

/-- `pickSideQuestPath` from `App.tsx`: deterministic traversal from the
entry node, special `trials → inmost` edge when the seismic variance
exceeds the threshold, terminal node appended when missing. -/
def pickSideQuestPath (steps : Nat) (sList : List St) : List SQNode :=
  let path := sqGo sList steps 0 SQNode.threshold
  if path.contains SQNode.exitN then path else path ++ [SQNode.exitN]

/-- `deriveLedger` from `App.tsx` (the returned `idx`/`total` fields are
never read downstream): the time band of `idx % 10` and the
variance-thresholded terrain. -/
def deriveLedger (idx : Nat) (s : St) : String × String :=
  let tp := idx % 10
  let time :=
    if tp < 3 then "morning" else if tp < 7 then "day" else if tp < 9 then "dusk" else "night"
  let terrain :=
    if (3/500 : ℚ) < (s.var.lookup "seismic").getD 0 then "rock"
    else if (1/1000 : ℚ) < (s.var.lookup "tilt").getD 0 then "forest"
    else "road"
  (time, terrain)

/-- `{...ncv, k: some v}`: set a tag, replacing an existing key in place. -/
def ncvSet (m : NCVMap) (k : String) (v : String) : NCVMap :=
  if m.any (fun p => p.1 = k) then
    m.map (fun p => if p.1 = k then (k, some v) else p)
  else m ++ [(k, some v)]

/-- The mutable loop state of `onGenerate` threaded across steps. -/
structure GenSt where
  prevWeights : Weights
  prevRegime : Regime
  tokens : List String
  recentBeats : List String
deriving DecidableEq, Repr

/-- Everything one loop iteration of `onGenerate` contributes, in the order
it is pushed to `out`: the optional bridge line, then the beat lines, then
the optional codebook-intent line; the classified (pre-override) and
selected (post-override) regimes and the emitted beats are recorded for
the specification. -/
structure StepLog where
  classified : Regime
  selected : Regime
  bridgeLine : Option String
  beats : List String
  beatLines : List String
  intentLines : List String
deriving DecidableEq, Repr

/-- The lines a step appends to `out`, in push order. -/
def stepLines (l : StepLog) : List String :=
  l.bridgeLine.toList ++ l.beatLines ++ l.intentLines

/-- The beat emission loop body: resolve each beat's surface text, append
the line only when non-empty, always append the beat to the rolling
history, dropping the oldest entry beyond 16. -/
def emitLines (beats : List String) (ncv : NCVMap) (recent : List String) :
    List String × List String :=
  match beats with
  | [] => ([], recent)
  | fn :: rest =>
    let line := pickSurfaceText fn ncv
    let rec0 := recent ++ [fn]
    let rec1 := if 16 < rec0.length then rec0.drop 1 else rec0
    let tail := emitLines rest ncv rec1
    ((if line = "" then [] else [line]) ++ tail.1, tail.2)

/-- One iteration of the `onGenerate` per-step loop. -/
def genStep (cb : Codebook) (sqStart sqEnd : Nat) (sqPath : List SQNode)
    (i : Nat) (s : St) (g : GenSt) : StepLog × GenSt :=
  let ledger := deriveLedger i s
  let ncv := ncvSet (ncvSet s.NCV "time" ledger.1) "terrain" ledger.2
  let s' := { s with NCV := ncv }
  let inst := instantRegimeWeights s'
  let mixed := mixWeights g.prevWeights inst (7/10)
  let regime0 := topRegime mixed
  let bridgeLine := (allowedBridge g.prevRegime regime0).map BRIDGE_FNS
  let regime :=
    if sqStart ≤ i ∧ i < sqEnd then
      match sqPath.get? (i - sqStart) with
      | some SQNode.inmost => Regime.shamanic
      | some SQNode.trials => if regime0 = Regime.fairytale then Regime.trickster else regime0
      | _ => regime0
    else regime0
  let chosen := chooseBeatsPlanned regime s' g.tokens g.recentBeats 3
  let emitted := emitLines chosen.1 ncv g.recentBeats
  let ints := (selectFunctions s cb).take 1
  let intentLines := ints.filterMap (fun fn =>
    let line := pickSurfaceText fn ncv
    if line = "" then none else some line)
  (⟨regime0, regime, bridgeLine, chosen.1, emitted.1, intentLines⟩,
   ⟨mixed, regime, chosen.2, emitted.2⟩)

/-- The `onGenerate` per-step loop over the remaining states, carrying the
step index. -/
def genLoop (cb : Codebook) (sqStart sqEnd : Nat) (sqPath : List SQNode) :
    Nat → List St → GenSt → List StepLog × GenSt
  | _, [], g => ([], g)
  | i, s :: rest, g =>
    let step := genStep cb sqStart sqEnd sqPath i s g
    let tail := genLoop cb sqStart sqEnd sqPath (i + 1) rest step.2
    (step.1 :: tail.1, tail.2)

/-- The initial loop state of a run: uniform weights, their top regime,
the seeded token set and an empty beat history. -/
def initGen : GenSt :=
  ⟨uniformWeights, topRegime uniformWeights, ["left_road"], []⟩

/-- The fixed opening anchor line. -/
def openingLine : String :=
  "Jane and Jill break camp at dawn beside the hydroelectric plant, thermoses steaming, turbines droning in the mist."

/-- The fixed closing anchor line. -/
def closingLine : String :=
  "After several days on the road they reach the cottage at the forest’s edge. A silhouetted figure opens the door and says, \"Are you ready?\""

/-- The "call" line: surface resolution with mood "reflective", with the
source's inline `||` fallback. -/
def callLine : String :=
  let l := pickSurfaceText "fn.call" [("mood", some "reflective")]
  if l = "" then "They shoulder their packs and check the map." else l

/-- The "return" line: surface resolution with empty context, with the
source's inline `||` fallback. -/
def returnLine : String :=
  let l := pickSurfaceText "fn.return" []
  if l = "" then "A lane appears between trees. They walk the last hundred meters without a word." else l

/-- `Math.floor(states.length * 0.15)` — in the rational model the exact
product is floored; at every concrete length used here (0 and 6 rows) this
coincides with the double-precision computation of the source. -/
def sqStartOf (n : Nat) : Nat := n * 15 / 100

/-- `Math.floor(states.length * 0.85)`, under the same convention. -/
def sqEndOf (n : Nat) : Nat := n * 85 / 100

/-- The step logs of one full generation run over derived states. -/
def genLogs (cb : Codebook) (states : List St) : List StepLog :=
  let sqStart := sqStartOf states.length
  let sqEnd := sqEndOf states.length
  let sqPath := pickSideQuestPath (max 1 (sqEnd - sqStart))
    ((states.drop sqStart).take (sqEnd - sqStart))
  (genLoop cb sqStart sqEnd sqPath 0 states initGen).1

/-- The full narrative of one run: opening anchor, call line, the per-step
lines in order, return line, closing anchor (`onGenerate`). -/
def genNarrative (cb : Codebook) (states : List St) : List String :=
  [openingLine, callLine] ++ (genLogs cb states).flatMap stepLines ++ [returnLine, closingLine]

/-- The `rows` memo of `App.tsx`: parse the CSV and, when a header exists,
keep only the engaged columns (missing cells become `undefined`). -/
def appRows (text : String) (engaged : List String) : List RowT :=
  let parsed := parseCSV text
  let keys := (parsed.headD []).map Prod.fst
  let hasHeader := keys.any (fun k => (jsNumber k).isNone)
  if ¬hasHeader then parsed
  else
    let cols := keys.filter (fun k => engaged.contains k)
    parsed.map (fun r => cols.map (fun k => (k, jsGet r k)))

/-- `onGenerate` from the data side of `App.tsx`: the no-data guard (the
run "does not proceed" exactly when the parsed-and-filtered row list is
empty), state derivation, then narrative assembly. `none` also covers the
`computeStates` failure case, which no preset codebook reaches. -/
def onGenerate (text : String) (engaged : List String) (cb : Codebook) :
    Option (List String) :=
  let rows := appRows text engaged
  if rows.isEmpty then none
  else (computeStates rows cb).map (genNarrative cb)

/-- The reference geology 6-row sample table (`PRESETS.geology.sampleCSV`
in `App.tsx`). -/
def geologySampleCSV : String :=
  "seismic,tilt,gas_flux,temp\n0.005,0.02,400,85\n0.006,0.02,405,86\n0.009,0.03,420,88\n0.004,0.02,398,84\n0.012,0.04,460,90\n0.003,0.02,390,83\n"

/-- The geology preset's engaged channels (`PRESETS.geology.channels`). -/
def geologyEngaged : List String := ["seismic", "tilt", "gas_flux", "temp"]

/-- Modelled from the spec: `codebook_geology.json` is configuration data
absent from the sources; §6 fixes its shape (channels, windows, ordered
bins, ordered NCV pairs, threshold rules over the fixed binding table) and
§8 pins row 0's seismic bin to the first bin whose max ≥ 0.005. This
instance follows those words; window 5 matches §8's boundary example. -/
def geologyCodebook : Codebook :=
  { entity := "geology",
    channels := ["seismic", "tilt", "gas_flux", "temp"],
    windows := ⟨5, 5⟩,
    bins :=
      [("seismic", [⟨"calm", 1/250⟩, ⟨"stir", 1/125⟩, ⟨"quake", 1000⟩]),
       ("tilt", [⟨"level", 1/40⟩, ⟨"shift", 7/200⟩, ⟨"shear", 1000⟩]),
       ("gas_flux", [⟨"low", 400⟩, ⟨"mid", 430⟩, ⟨"high", 100000⟩]),
       ("temp", [⟨"cool", 84⟩, ⟨"warm", 89⟩, ⟨"hot", 1000⟩])],
    ncv :=
      [("mood", ⟨"seismic.var", [("low", "serene"), ("med", "tense"), ("high", "strained")]⟩),
       ("pace", ⟨"seismic.trend", [("up", "fast"), ("down", "slow"), ("flat", "steady")]⟩),
       ("pov", ⟨"setpoint.temp", [("cool", "jane"), ("warm", "jill")]⟩),
       ("symbolic", ⟨"tilt.bin", [("shear", "threshold")]⟩)],
    thresholds :=
      [⟨CbExpr.eqSig "seismic.bin" "quake", ["fn.noise_far"]⟩] }

/-- A derived state with no channel data and no tags (all comparisons see
absent values, as for a row of an untracked table). -/
def emptySt : St := ⟨[], [], [], [], [], [], []⟩

/-- A concrete input table driving the side-quest override: tilt moves from
the "shift" bin to the "level" bin while its rolling variance first spikes
and then settles, and seismic steps once. -/
def ce6CSV : String :=
  "seismic,tilt\n0,0.2\n0.1,0.06\n0.1,0.05\n0.1,0.05\n0.1,0.05\n0.1,0.05"

/-- A concrete codebook for the same run: two tracked channels, window 2,
and a pace tag read off the tilt bin. -/
def ce6Codebook : Codebook :=
  { entity := "ce",
    channels := ["seismic", "tilt"],
    windows := ⟨2, 2⟩,
    bins :=
      [("seismic", [⟨"calm", 1000⟩]),
       ("tilt", [⟨"level", 1/20⟩, ⟨"shift", 1000⟩])],
    ncv := [("pace", ⟨"tilt.bin", [("shift", "steady"), ("level", "calm")]⟩)],
    thresholds := [] }

/-- The derived states of the `ce6CSV` run. -/
def ce6States : List St :=
  (computeStates (appRows ce6CSV ["seismic", "tilt"]) ce6Codebook).getD []

/-- The six beat identifiers with hard-coded score bonuses in `scoreBeat`. -/
def bonusIds : List String :=
  ["fn.stalked", "fn.cross_danger", "fn.ascend", "fn.descend", "fn.find_marker", "fn.ordeal_dark"]

/-- A codebook tracking a channel that has no entry in `bins`. -/
def c3Codebook : Codebook :=
  { entity := "broken", channels := ["x"], windows := ⟨5, 5⟩,
    bins := [], ncv := [], thresholds := [] }

/-- Snapshot of the geology reference run, used to evaluate it stepwise. -/
def geoS0 : St :=
  ⟨[("seismic", (JSVal.num (Rat.divInt 1 200))), ("tilt", (JSVal.num (Rat.divInt 1 50))), ("gas_flux", (JSVal.num (Rat.divInt 400 1))), ("temp", (JSVal.num (Rat.divInt 85 1)))],
   [("seismic", "stir"), ("tilt", "level"), ("gas_flux", "low"), ("temp", "warm")],
   [("seismic", (Rat.divInt 0 1)), ("tilt", (Rat.divInt 0 1)), ("gas_flux", (Rat.divInt 0 1)), ("temp", (Rat.divInt 0 1))],
   [("seismic", (Rat.divInt 0 1)), ("tilt", (Rat.divInt 0 1)), ("gas_flux", (Rat.divInt 0 1)), ("temp", (Rat.divInt 0 1))], [("temp", "warm")], [],
   [("mood", (some "serene")), ("pace", (some "steady")), ("pov", (some "jill")), ("symbolic", (some "level"))]⟩

/-- Snapshot of the geology reference run, used to evaluate it stepwise. -/
def geoS1 : St :=
  ⟨[("seismic", (JSVal.num (Rat.divInt 3 500))), ("tilt", (JSVal.num (Rat.divInt 1 50))), ("gas_flux", (JSVal.num (Rat.divInt 405 1))), ("temp", (JSVal.num (Rat.divInt 86 1)))],
   [("seismic", "stir"), ("tilt", "level"), ("gas_flux", "mid"), ("temp", "warm")],
   [("seismic", (Rat.divInt 1 1000)), ("tilt", (Rat.divInt 0 1)), ("gas_flux", (Rat.divInt 5 1)), ("temp", (Rat.divInt 1 1))],
   [("seismic", (Rat.divInt 1 4000000)), ("tilt", (Rat.divInt 0 1)), ("gas_flux", (Rat.divInt 25 4)), ("temp", (Rat.divInt 1 4))], [("temp", "warm")], [],
   [("mood", (some "serene")), ("pace", (some "steady")), ("pov", (some "jill")), ("symbolic", (some "level"))]⟩

/-- Snapshot of the geology reference run, used to evaluate it stepwise. -/
def geoS2 : St :=
  ⟨[("seismic", (JSVal.num (Rat.divInt 9 1000))), ("tilt", (JSVal.num (Rat.divInt 3 100))), ("gas_flux", (JSVal.num (Rat.divInt 420 1))), ("temp", (JSVal.num (Rat.divInt 88 1)))],
   [("seismic", "quake"), ("tilt", "shift"), ("gas_flux", "mid"), ("temp", "warm")],
   [("seismic", (Rat.divInt 1 250)), ("tilt", (Rat.divInt 1 100)), ("gas_flux", (Rat.divInt 20 1)), ("temp", (Rat.divInt 3 1))],
   [("seismic", (Rat.divInt 13 4500000)), ("tilt", (Rat.divInt 1 45000)), ("gas_flux", (Rat.divInt 650 9)), ("temp", (Rat.divInt 14 9))], [("temp", "warm")], [],
   [("mood", (some "serene")), ("pace", (some "steady")), ("pov", (some "jill")), ("symbolic", (some "shift"))]⟩

/-- Snapshot of the geology reference run, used to evaluate it stepwise. -/
def geoS3 : St :=
  ⟨[("seismic", (JSVal.num (Rat.divInt 1 250))), ("tilt", (JSVal.num (Rat.divInt 1 50))), ("gas_flux", (JSVal.num (Rat.divInt 398 1))), ("temp", (JSVal.num (Rat.divInt 84 1)))],
   [("seismic", "calm"), ("tilt", "level"), ("gas_flux", "low"), ("temp", "cool")],
   [("seismic", (Rat.divInt (-1) 1000)), ("tilt", (Rat.divInt 0 1)), ("gas_flux", (Rat.divInt (-2) 1)), ("temp", (Rat.divInt (-1) 1))],
   [("seismic", (Rat.divInt 7 2000000)), ("tilt", (Rat.divInt 3 160000)), ("gas_flux", (Rat.divInt 1187 16)), ("temp", (Rat.divInt 35 16))], [("temp", "cool")], [],
   [("mood", (some "serene")), ("pace", (some "steady")), ("pov", (some "jane")), ("symbolic", (some "level"))]⟩

/-- Snapshot of the geology reference run, used to evaluate it stepwise. -/
def geoS4 : St :=
  ⟨[("seismic", (JSVal.num (Rat.divInt 3 250))), ("tilt", (JSVal.num (Rat.divInt 1 25))), ("gas_flux", (JSVal.num (Rat.divInt 460 1))), ("temp", (JSVal.num (Rat.divInt 90 1)))],
   [("seismic", "quake"), ("tilt", "shear"), ("gas_flux", "high"), ("temp", "hot")],
   [("seismic", (Rat.divInt 7 1000)), ("tilt", (Rat.divInt 1 50)), ("gas_flux", (Rat.divInt 60 1)), ("temp", (Rat.divInt 5 1))],
   [("seismic", (Rat.divInt 107 12500000)), ("tilt", (Rat.divInt 1 15625)), ("gas_flux", (Rat.divInt 13256 25)), ("temp", (Rat.divInt 116 25))], [("temp", "hot")], [],
   [("mood", (some "serene")), ("pace", (some "steady")), ("pov", (some "hot")), ("symbolic", (some "threshold"))]⟩

/-- Snapshot of the geology reference run, used to evaluate it stepwise. -/
def geoS5 : St :=
  ⟨[("seismic", (JSVal.num (Rat.divInt 3 1000))), ("tilt", (JSVal.num (Rat.divInt 1 50))), ("gas_flux", (JSVal.num (Rat.divInt 390 1))), ("temp", (JSVal.num (Rat.divInt 83 1)))],
   [("seismic", "calm"), ("tilt", "level"), ("gas_flux", "low"), ("temp", "cool")],
   [("seismic", (Rat.divInt (-3) 1000)), ("tilt", (Rat.divInt 0 1)), ("gas_flux", (Rat.divInt (-15) 1)), ("temp", (Rat.divInt (-3) 1))],
   [("seismic", (Rat.divInt 137 12500000)), ("tilt", (Rat.divInt 1 15625)), ("gas_flux", (Rat.divInt 15316 25)), ("temp", (Rat.divInt 164 25))], [("temp", "cool")], [],
   [("mood", (some "serene")), ("pace", (some "steady")), ("pov", (some "jane")), ("symbolic", (some "level"))]⟩

/-- Snapshot of the geology reference run, used to evaluate it stepwise. -/
def geoStatesLit : List St := [geoS0, geoS1, geoS2, geoS3, geoS4, geoS5]

/-- Snapshot of the geology reference run, used to evaluate it stepwise. -/
def geoPathLit : List SQNode :=
  [SQNode.threshold, SQNode.trials, SQNode.trials, SQNode.trials, SQNode.trials, SQNode.exitN]

/-- Snapshot of the geology reference run, used to evaluate it stepwise. -/
def geoLog0 : StepLog :=
  ⟨Regime.fairytale, Regime.fairytale,
   none,
   ["fn.trail_cut",
   "fn.road_walk",
   "fn.feast_smell"],
   ["They leave the road and step onto a narrow trail through fir and alder.",
   "They follow the service road skirting the river.",
   "They smell bread and smoke where no houses stand."],
   []⟩

/-- Snapshot of the geology reference run, used to evaluate it stepwise. -/
def geoG1 : GenSt :=
  ⟨⟨(Rat.divInt 7 50), (Rat.divInt 43 200), (Rat.divInt 7 50), (Rat.divInt 63 200), (Rat.divInt 19 100)⟩, Regime.fairytale,
   ["left_road",
   "in_trail",
   "on_road"],
   ["fn.trail_cut",
   "fn.road_walk",
   "fn.feast_smell"]⟩

/-- Snapshot of the geology reference run, used to evaluate it stepwise. -/
def geoLog1 : StepLog :=
  ⟨Regime.fairytale, Regime.trickster,
   none,
   ["fn.crossing",
   "fn.sign_confusing",
   "fn.double_identity"],
   ["They wade a cold braid of the river, boots slung by their laces.",
   "Two arrows on the same post point opposite directions.",
   "They greet a traveler who later passes them again from the wrong direction."],
   []⟩

/-- Snapshot of the geology reference run, used to evaluate it stepwise. -/
def geoG2 : GenSt :=
  ⟨⟨(Rat.divInt 49 500), (Rat.divInt 451 2000), (Rat.divInt 49 500), (Rat.divInt 791 2000), (Rat.divInt 183 1000)⟩, Regime.trickster,
   ["left_road",
   "in_trail",
   "on_road",
   "wet"],
   ["fn.trail_cut",
   "fn.road_walk",
   "fn.feast_smell",
   "fn.crossing",
   "fn.sign_confusing",
   "fn.double_identity"]⟩

/-- Snapshot of the geology reference run, used to evaluate it stepwise. -/
def geoLog2 : StepLog :=
  ⟨Regime.fairytale, Regime.trickster,
   (some "The trick they played earlier finds its balance; a basket sits waiting with their lost map inside."),
   ["fn.find_marker",
   "fn.road_walk",
   "fn.trail_cut"],
   ["At a fork, a survey marker points east. They mark the map and continue.",
   "They follow the service road skirting the river.",
   "They leave the road and step onto a narrow trail through fir and alder."],
   ["Somewhere upslope, something moves when they move; then stops."]⟩

/-- Snapshot of the geology reference run, used to evaluate it stepwise. -/
def geoG3 : GenSt :=
  ⟨⟨(Rat.divInt 343 5000), (Rat.divInt 5557 20000), (Rat.divInt 343 5000), (Rat.divInt 8337 20000), (Rat.divInt 1681 10000)⟩, Regime.trickster,
   ["left_road",
   "in_trail",
   "on_road",
   "wet",
   "oriented"],
   ["fn.trail_cut",
   "fn.road_walk",
   "fn.feast_smell",
   "fn.crossing",
   "fn.sign_confusing",
   "fn.double_identity",
   "fn.find_marker",
   "fn.road_walk",
   "fn.trail_cut"]⟩

/-- Snapshot of the geology reference run, used to evaluate it stepwise. -/
def geoLog3 : StepLog :=
  ⟨Regime.fairytale, Regime.trickster,
   (some "The trick they played earlier finds its balance; a basket sits waiting with their lost map inside."),
   ["fn.crossing",
   "fn.sign_confusing",
   "fn.misdirection"],
   ["They wade a cold braid of the river, boots slung by their laces.",
   "Two arrows on the same post point opposite directions.",
   "A friendly voice points them to a shortcut that loops back on itself."],
   []⟩

/-- Snapshot of the geology reference run, used to evaluate it stepwise. -/
def geoG4 : GenSt :=
  ⟨⟨(Rat.divInt 39307 350000), (Rat.divInt 362293 1400000), (Rat.divInt 2401 50000), (Rat.divInt 88359 200000), (Rat.divInt 97369 700000)⟩, Regime.trickster,
   ["left_road",
   "in_trail",
   "on_road",
   "wet",
   "oriented"],
   ["fn.trail_cut",
   "fn.road_walk",
   "fn.feast_smell",
   "fn.crossing",
   "fn.sign_confusing",
   "fn.double_identity",
   "fn.find_marker",
   "fn.road_walk",
   "fn.trail_cut",
   "fn.crossing",
   "fn.sign_confusing",
   "fn.misdirection"]⟩

/-- Snapshot of the geology reference run, used to evaluate it stepwise. -/
def geoLog4 : StepLog :=
  ⟨Regime.fairytale, Regime.trickster,
   (some "The trick they played earlier finds its balance; a basket sits waiting with their lost map inside."),
   ["fn.road_walk",
   "fn.double_identity",
   "fn.lost_item"],
   ["They follow the service road skirting the river.",
   "They greet a traveler who later passes them again from the wrong direction.",
   "They check their packs and find the compass missing."],
   ["Somewhere upslope, something moves when they move; then stops."]⟩

/-- Snapshot of the geology reference run, used to evaluate it stepwise. -/
def geoG5 : GenSt :=
  ⟨⟨(Rat.divInt 39307 500000), (Rat.divInt 462293 2000000), (Rat.divInt 16807 500000), (Rat.divInt 2555539 6000000), (Rat.divInt 692107 3000000)⟩, Regime.trickster,
   ["left_road",
   "in_trail",
   "on_road",
   "wet",
   "oriented"],
   ["fn.trail_cut",
   "fn.road_walk",
   "fn.feast_smell",
   "fn.crossing",
   "fn.sign_confusing",
   "fn.double_identity",
   "fn.find_marker",
   "fn.road_walk",
   "fn.trail_cut",
   "fn.crossing",
   "fn.sign_confusing",
   "fn.misdirection",
   "fn.road_walk",
   "fn.double_identity",
   "fn.lost_item"]⟩

/-- Snapshot of the geology reference run, used to evaluate it stepwise. -/
def geoLog5 : StepLog :=
  ⟨Regime.fairytale, Regime.fairytale,
   (some "The trick they played earlier finds its balance; a basket sits waiting with their lost map inside."),
   ["fn.trail_cut",
   "fn.crossing",
   "fn.feast_smell"],
   ["They leave the road and step onto a narrow trail through fir and alder.",
   "They wade a cold braid of the river, boots slung by their laces.",
   "They smell bread and smoke where no houses stand."],
   []⟩

/-- Snapshot of the geology reference run, used to evaluate it stepwise. -/
def geoG6 : GenSt :=
  ⟨⟨(Rat.divInt 4176043 35000000), (Rat.divInt 31652357 140000000), (Rat.divInt 117649 5000000), (Rat.divInt 26888773 60000000), (Rat.divInt 38413243 210000000)⟩, Regime.fairytale,
   ["left_road",
   "in_trail",
   "on_road",
   "wet",
   "oriented"],
   ["fn.feast_smell",
   "fn.crossing",
   "fn.sign_confusing",
   "fn.double_identity",
   "fn.find_marker",
   "fn.road_walk",
   "fn.trail_cut",
   "fn.crossing",
   "fn.sign_confusing",
   "fn.misdirection",
   "fn.road_walk",
   "fn.double_identity",
   "fn.lost_item",
   "fn.trail_cut",
   "fn.crossing",
   "fn.feast_smell"]⟩

/-- Snapshot of the geology reference run, used to evaluate it stepwise. -/
def geoLines : List String :=
  ["Jane and Jill break camp at dawn beside the hydroelectric plant, thermoses steaming, turbines droning in the mist.",
   "They shoulder their packs and check the map. The road runs east along the river.",
   "They leave the road and step onto a narrow trail through fir and alder.",
   "They follow the service road skirting the river.",
   "They smell bread and smoke where no houses stand.",
   "They wade a cold braid of the river, boots slung by their laces.",
   "Two arrows on the same post point opposite directions.",
   "They greet a traveler who later passes them again from the wrong direction.",
   "The trick they played earlier finds its balance; a basket sits waiting with their lost map inside.",
   "At a fork, a survey marker points east. They mark the map and continue.",
   "They follow the service road skirting the river.",
   "They leave the road and step onto a narrow trail through fir and alder.",
   "Somewhere upslope, something moves when they move; then stops.",
   "The trick they played earlier finds its balance; a basket sits waiting with their lost map inside.",
   "They wade a cold braid of the river, boots slung by their laces.",
   "Two arrows on the same post point opposite directions.",
   "A friendly voice points them to a shortcut that loops back on itself.",
   "The trick they played earlier finds its balance; a basket sits waiting with their lost map inside.",
   "They follow the service road skirting the river.",
   "They greet a traveler who later passes them again from the wrong direction.",
   "They check their packs and find the compass missing.",
   "Somewhere upslope, something moves when they move; then stops.",
   "The trick they played earlier finds its balance; a basket sits waiting with their lost map inside.",
   "They leave the road and step onto a narrow trail through fir and alder.",
   "They wade a cold braid of the river, boots slung by their laces.",
   "They smell bread and smoke where no houses stand.",
   "A lane appears between trees. They walk the last hundred meters without a word.",
   "After several days on the road they reach the cottage at the forest’s edge. A silhouetted figure opens the door and says, \"Are you ready?\""]

/-- The token set after applying, in order, the effect tokens of a list of
emitted beats. -/
def applyGivesList (t : List String) (beats : List String) : List String :=
  beats.foldl (fun tk fn => applyGives tk (beatRule fn).gives) t

lemma contains_iff_mem (l : List String) (x : String) : l.contains x = true ↔ x ∈ l := by
  induction l with
  | nil => simp
  | cons y ys ih => simp [List.contains, List.elem_cons]

lemma applyGives_cons (t : List String) (g0 : String) (gs : List String) :
    applyGives t (g0 :: gs) = applyGives (if t.contains g0 then t else t ++ [g0]) gs := rfl

lemma mem_applyGives {x : String} :
    ∀ (g t : List String), x ∈ applyGives t g → x ∈ t ∨ x ∈ g := by
  intro g
  induction g with
  | nil => intro t h; exact Or.inl h
  | cons g0 gs ih =>
    intro t h
    rw [applyGives_cons] at h
    rcases ih _ h with h' | h'
    · by_cases hc : t.contains g0
      · rw [if_pos hc] at h'
        exact Or.inl h'
      · rw [if_neg hc] at h'
        rcases List.mem_append.1 h' with h'' | h''
        · exact Or.inl h''
        · exact Or.inr (List.mem_cons.2 (Or.inl (List.mem_singleton.1 h'')))
    · exact Or.inr (List.mem_cons_of_mem _ h')

lemma applyGives_append_form :
    ∀ (g t : List String), ∃ u, applyGives t g = t ++ u := by
  intro g
  induction g with
  | nil => intro t; exact ⟨[], by simp [applyGives]⟩
  | cons g0 gs ih =>
    intro t
    by_cases hc : t.contains g0
    · obtain ⟨u, hu⟩ := ih t
      refine ⟨u, ?_⟩
      rw [applyGives_cons, if_pos hc, hu]
    · obtain ⟨u, hu⟩ := ih (t ++ [g0])
      refine ⟨g0 :: u, ?_⟩
      rw [applyGives_cons, if_neg hc, hu, List.append_assoc]
      rfl

lemma applyGivesList_cons (t : List String) (fn : String) (beats : List String) :
    applyGivesList t (fn :: beats) = applyGivesList (applyGives t (beatRule fn).gives) beats := rfl

lemma applyGivesList_append (t : List String) (l1 l2 : List String) :
    applyGivesList t (l1 ++ l2) = applyGivesList (applyGivesList t l1) l2 := by
  simp [applyGivesList, List.foldl_append]

lemma applyGivesList_append_form :
    ∀ (beats t : List String), ∃ u, applyGivesList t beats = t ++ u := by
  intro beats
  induction beats with
  | nil => intro t; exact ⟨[], by simp [applyGivesList]⟩
  | cons fn rest ih =>
    intro t
    obtain ⟨u1, hu1⟩ := applyGives_append_form (beatRule fn).gives t
    obtain ⟨u2, hu2⟩ := ih (applyGives t (beatRule fn).gives)
    exact ⟨u1 ++ u2, by rw [applyGivesList_cons, hu2, hu1, List.append_assoc]⟩

lemma mem_applyGivesList {x : String} :
    ∀ (beats t : List String), x ∈ applyGivesList t beats →
      x ∈ t ∨ ∃ fn, fn ∈ beats ∧ x ∈ (beatRule fn).gives := by
  intro beats
  induction beats with
  | nil => intro t h; exact Or.inl h
  | cons fn rest ih =>
    intro t h
    rw [applyGivesList_cons] at h
    rcases ih _ h with h' | ⟨fn', hfn', hx⟩
    · rcases mem_applyGives _ _ h' with h'' | h''
      · exact Or.inl h''
      · exact Or.inr ⟨fn, List.mem_cons_self _ _, h''⟩
    · exact Or.inr ⟨fn', List.mem_cons_of_mem _ hfn', hx⟩

lemma hasAll_mem {t needs : List String} (h : hasAll t needs = true) {x : String}
    (hx : x ∈ needs) : x ∈ t := by
  simp only [hasAll, List.all_eq_true] at h
  exact (contains_iff_mem _ _).1 (h x hx)

lemma mem_dedupFirst_aux :
    ∀ (l acc : List String) (x : String),
      x ∈ l.foldl (fun acc y => if acc.contains y then acc else acc ++ [y]) acc →
      x ∈ acc ∨ x ∈ l := by
  intro l
  induction l with
  | nil => intro acc x h; exact Or.inl h
  | cons y ys ih =>
    intro acc x h
    rcases ih _ x h with h' | h'
    · dsimp only at h'
      by_cases hc : acc.contains y
      · rw [if_pos hc] at h'
        exact Or.inl h'
      · rw [if_neg hc] at h'
        rcases List.mem_append.1 h' with h'' | h''
        · exact Or.inl h''
        · exact Or.inr (List.mem_cons.2 (Or.inl (List.mem_singleton.1 h'')))
    · exact Or.inr (List.mem_cons_of_mem _ h')

lemma dedupFirst_subset {l : List String} {x : String} (h : x ∈ dedupFirst l) : x ∈ l := by
  rcases mem_dedupFirst_aux l [] x h with h' | h'
  · simp at h'
  · exact h'

lemma mem_insertScored :
    ∀ (l : List (String × ℚ)) (x y : String × ℚ), y ∈ insertScored x l → y = x ∨ y ∈ l := by
  intro l
  induction l with
  | nil => intro x y h; simpa [insertScored] using h
  | cons z zs ih =>
    intro x y h
    rw [insertScored] at h
    by_cases hc : x.2 ≤ z.2
    · rw [if_pos hc] at h
      rcases List.mem_cons.1 h with h' | h'
      · exact Or.inr (by simp [h'])
      · rcases ih x y h' with h'' | h''
        · exact Or.inl h''
        · exact Or.inr (List.mem_cons_of_mem _ h'')
    · rw [if_neg hc] at h
      rcases List.mem_cons.1 h with h' | h'
      · exact Or.inl h'
      · exact Or.inr h'

lemma mem_sortScored_aux :
    ∀ (l acc : List (String × ℚ)) (y : String × ℚ),
      y ∈ l.foldl (fun acc x => insertScored x acc) acc → y ∈ acc ∨ y ∈ l := by
  intro l
  induction l with
  | nil => intro acc y h; exact Or.inl h
  | cons x xs ih =>
    intro acc y h
    rcases ih _ y h with h' | h'
    · dsimp only at h'
      rcases mem_insertScored _ _ _ h' with h'' | h''
      · exact Or.inr (by simp [h''])
      · exact Or.inl h''
    · exact Or.inr (List.mem_cons_of_mem _ h')

lemma mem_sortScored {l : List (String × ℚ)} {y : String × ℚ}
    (h : y ∈ sortScored l) : y ∈ l := by
  rcases mem_sortScored_aux l [] y h with h' | h'
  · simp at h'
  · exact h'

lemma chooseGo_spec (want : Nat) :
    ∀ (scored : List (String × ℚ)) (out tk : List String),
      ∃ newB, chooseGo want scored out tk = (out ++ newB, applyGivesList tk newB) ∧
        ∀ fn ∈ newB, ∃ q, (fn, q) ∈ scored := by
  intro scored
  induction scored with
  | nil =>
    intro out tk
    exact ⟨[], by simp [chooseGo, applyGivesList], by simp⟩
  | cons x rest ih =>
    intro out tk
    by_cases hw : want ≤ out.length
    · exact ⟨[], by simp [chooseGo, hw, applyGivesList], by simp⟩
    · obtain ⟨newB, h1, h2⟩ := ih (out ++ [x.1]) (applyGives tk (beatRule x.1).gives)
      refine ⟨x.1 :: newB, ?_, ?_⟩
      · simp only [chooseGo, hw, if_neg, not_false_iff]
        rw [h1, List.append_assoc]
        rfl
      · intro fn hfn
        rcases List.mem_cons.1 hfn with h | h
        · exact ⟨x.2, by simp [h]⟩
        · obtain ⟨q, hq⟩ := h2 fn h
          exact ⟨q, List.mem_cons_of_mem _ hq⟩

lemma chooseBeatsPlanned_spec (r : Regime) (s : St) (t rec' : List String) (w : Nat) :
    (chooseBeatsPlanned r s t rec' w).2 = applyGivesList t (chooseBeatsPlanned r s t rec' w).1 ∧
    ∀ fn ∈ (chooseBeatsPlanned r s t rec' w).1,
      fn ∈ paletteUnion r ∧ hasAll t (beatRule fn).needs = true := by
  obtain ⟨newB, h1, h2⟩ := chooseGo_spec w
    (sortScored (((dedupFirst (paletteUnion r)).filter
      (fun fn => hasAll t (beatRule fn).needs)).map (fun fn =>
        let sc := scoreBeat fn r s
        (fn, if (lastN 4 rec').contains fn then sc * (2/5) else sc)))) [] t
  have hfn : ∀ fn ∈ newB,
      fn ∈ paletteUnion r ∧ hasAll t (beatRule fn).needs = true := by
    intro fn hmem
    obtain ⟨q, hq⟩ := h2 fn hmem
    have hq' := mem_sortScored hq
    obtain ⟨fn', hfn', heq⟩ := List.mem_map.1 hq'
    have hfst : fn' = fn := congrArg Prod.fst heq
    subst hfst
    have hf := List.mem_filter.1 hfn'
    exact ⟨dedupFirst_subset hf.1, hf.2⟩
  constructor
  · show (chooseGo w _ [] t).2 = applyGivesList t (chooseGo w _ [] t).1
    rw [h1]
    simp
  · intro fn hmem
    have : (chooseBeatsPlanned r s t rec' w).1 = newB := by
      show (chooseGo w _ [] t).1 = newB
      rw [h1]
      simp
    rw [this] at hmem
    exact hfn fn hmem

lemma genStep_spec (cb : Codebook) (a b : Nat) (p : List SQNode) (i : Nat) (s : St)
    (g : GenSt) :
    (genStep cb a b p i s g).2.tokens =
        applyGivesList g.tokens (genStep cb a b p i s g).1.beats ∧
    (∀ fn ∈ (genStep cb a b p i s g).1.beats,
        fn ∈ paletteUnion (genStep cb a b p i s g).1.selected ∧
        hasAll g.tokens (beatRule fn).needs = true) := by
  exact ⟨(chooseBeatsPlanned_spec _ _ _ _ _).1,
    fun fn hfn => (chooseBeatsPlanned_spec _ _ _ _ _).2 fn hfn⟩

lemma genLoop_tokens (cb : Codebook) (a b : Nat) (p : List SQNode) :
    ∀ (states : List St) (i : Nat) (g : GenSt),
      (genLoop cb a b p i states g).2.tokens =
        applyGivesList g.tokens ((genLoop cb a b p i states g).1.flatMap StepLog.beats) := by
  intro states
  induction states with
  | nil => intro i g; simp [genLoop, applyGivesList]
  | cons s rest ih =>
    intro i g
    have hstep := (genStep_spec cb a b p i s g).1
    show (genLoop cb a b p (i + 1) rest (genStep cb a b p i s g).2).2.tokens = _
    rw [ih (i + 1) (genStep cb a b p i s g).2]
    have hflat : ((genStep cb a b p i s g).1 ::
        (genLoop cb a b p (i + 1) rest (genStep cb a b p i s g).2).1).flatMap StepLog.beats =
        (genStep cb a b p i s g).1.beats ++
        ((genLoop cb a b p (i + 1) rest (genStep cb a b p i s g).2).1.flatMap StepLog.beats) := by
      simp
    show _ = applyGivesList g.tokens (((genStep cb a b p i s g).1 ::
        (genLoop cb a b p (i + 1) rest (genStep cb a b p i s g).2).1).flatMap StepLog.beats)
    rw [hflat, applyGivesList_append, hstep]

lemma genLoop_tokens_grow (cb : Codebook) (a b : Nat) (p : List SQNode)
    (states : List St) (i : Nat) (g : GenSt) :
    ∃ u, (genLoop cb a b p i states g).2.tokens = g.tokens ++ u := by
  rw [genLoop_tokens]
  exact applyGivesList_append_form _ _

lemma genLoop_gating (cb : Codebook) (a b : Nat) (p : List SQNode) :
    ∀ (states : List St) (i : Nat) (g : GenSt) (pre : List String) (bb : String)
      (post : List String),
      ((genLoop cb a b p i states g).1.flatMap StepLog.beats) = pre ++ bb :: post →
      ∀ t ∈ (beatRule bb).needs,
        t ∈ g.tokens ∨ ∃ b', b' ∈ pre ∧ t ∈ (beatRule b').gives := by
  intro states
  induction states with
  | nil =>
    intro i g pre bb post h
    simp [genLoop] at h
  | cons s rest ih =>
    intro i g pre bb post h t ht
    have hflat : ((genLoop cb a b p i (s :: rest) g).1.flatMap StepLog.beats) =
        (genStep cb a b p i s g).1.beats ++
        ((genLoop cb a b p (i + 1) rest (genStep cb a b p i s g).2).1.flatMap StepLog.beats) := by
      simp [genLoop]
    rw [hflat] at h
    have htok := (genStep_spec cb a b p i s g).1
    rcases List.append_eq_append_iff.1 h with ⟨a', hpre, hrest⟩ | ⟨c', hbeats, hcons⟩
    · rcases ih (i + 1) (genStep cb a b p i s g).2 a' bb post hrest t ht with hin | ⟨b', hb', hx⟩
      · rw [htok] at hin
        rcases mem_applyGivesList _ _ hin with hin' | ⟨fn, hfn, hx⟩
        · exact Or.inl hin'
        · exact Or.inr ⟨fn, by rw [hpre]; exact List.mem_append_left _ hfn, hx⟩
      · exact Or.inr ⟨b', by rw [hpre]; exact List.mem_append_right _ hb', hx⟩
    · cases c' with
      | nil =>
        have hrest : ((genLoop cb a b p (i + 1) rest
            (genStep cb a b p i s g).2).1.flatMap StepLog.beats) = [] ++ bb :: post := by
          simpa using hcons.symm
        rcases ih (i + 1) (genStep cb a b p i s g).2 [] bb post hrest t ht with hin | ⟨b', hb', _⟩
        · rw [htok] at hin
          rcases mem_applyGivesList _ _ hin with hin' | ⟨fn, hfn, hx⟩
          · exact Or.inl hin'
          · refine Or.inr ⟨fn, ?_, hx⟩
            rw [hbeats] at hfn
            simpa using hfn
        · simp at hb'
      | cons bb' c'' =>
        have hbb : bb = bb' := by
          have := congrArg List.head? hcons
          simpa using this
        have hmem : bb ∈ (genStep cb a b p i s g).1.beats := by
          rw [hbeats, hbb]
          exact List.mem_append_right _ (List.mem_cons_self _ _)
        have hfeas := ((genStep_spec cb a b p i s g).2 bb hmem).2
        exact Or.inl (hasAll_mem hfeas ht)

lemma emitLines_cons (fn : String) (rest : List String) (ncv : NCVMap) (rec' : List String) :
    emitLines (fn :: rest) ncv rec' =
      ((if pickSurfaceText fn ncv = "" then [] else [pickSurfaceText fn ncv]) ++
        (emitLines rest ncv
          (if 16 < (rec' ++ [fn]).length then (rec' ++ [fn]).drop 1 else rec' ++ [fn])).1,
       (emitLines rest ncv
          (if 16 < (rec' ++ [fn]).length then (rec' ++ [fn]).drop 1 else rec' ++ [fn])).2) := rfl

lemma emitLines_snd :
    ∀ (beats : List String) (ncv : NCVMap) (rec' : List String), rec'.length ≤ 16 →
      (emitLines beats ncv rec').2 = (rec' ++ beats).drop ((rec' ++ beats).length - 16) := by
  intro beats
  induction beats with
  | nil =>
    intro ncv rec' hle
    have : rec'.length - 16 = 0 := by omega
    simp [emitLines, this]
  | cons fn rest ih =>
    intro ncv rec' hle
    rw [emitLines_cons]
    by_cases h16 : 16 < (rec' ++ [fn]).length
    · have hlen : rec'.length = 16 := by
        simp at h16
        omega
      rw [if_pos h16]
      have hdl : ((rec' ++ [fn]).drop 1).length ≤ 16 := by
        simp
        omega
      rw [ih ncv _ hdl]
      have hsplit : (rec' ++ [fn]).drop 1 ++ rest = (rec' ++ fn :: rest).drop 1 := by
        rw [← List.drop_append_of_le_length (by simp : 1 ≤ (rec' ++ [fn]).length)]
        simp
      rw [hsplit, List.drop_drop]
      congr 1
      have h1 : ((rec' ++ fn :: rest).drop 1).length = 16 + rest.length := by
        simp
        omega
      have h2 : (rec' ++ fn :: rest).length = 17 + rest.length := by
        simp
        omega
      omega
    · rw [if_neg h16]
      have hlen : (rec' ++ [fn]).length ≤ 16 := by omega
      rw [ih ncv _ hlen]
      congr 1 <;> simp

lemma emitLines_fst :
    ∀ (beats : List String) (ncv : NCVMap) (rec' : List String),
      (emitLines beats ncv rec').1 =
        beats.filterMap (fun fn =>
          if pickSurfaceText fn ncv = "" then none else some (pickSurfaceText fn ncv)) := by
  intro beats
  induction beats with
  | nil => intro ncv rec'; simp [emitLines]
  | cons fn rest ih =>
    intro ncv rec'
    rw [emitLines_cons]
    by_cases hl : pickSurfaceText fn ncv = ""
    · simp [hl, List.filterMap_cons, ih]
    · simp [hl, List.filterMap_cons, ih]

lemma le_if_add {c : Prop} [Decidable c] {a sc x : ℚ} (h : a ≤ sc) (hx : 0 ≤ x) :
    a ≤ if c then sc + x else sc := by
  split_ifs with hc
  · linarith
  · exact h

lemma scoreBeat_ge_base (fn : String) (r : Regime) (s : St) :
    (if inPaletteB r fn then (1 : ℚ) else 1/5) ≤ scoreBeat fn r s := by
  unfold scoreBeat
  refine le_if_add (le_if_add (le_if_add (le_if_add (le_if_add (le_if_add le_rfl ?_) ?_) ?_) ?_) ?_) ?_
  all_goals split_ifs <;> norm_num

lemma scoreBeat_pos (fn : String) (r : Regime) (s : St) : 0 < scoreBeat fn r s := by
  have hb : (0 : ℚ) < if inPaletteB r fn then (1 : ℚ) else 1/5 := by
    split_ifs <;> norm_num
  exact lt_of_lt_of_le hb (scoreBeat_ge_base fn r s)

lemma scoreBeat_base (fn : String) (r : Regime) (s : St) (h : fn ∉ bonusIds) :
    scoreBeat fn r s = if inPaletteB r fn then (1 : ℚ) else 1/5 := by
  simp only [bonusIds, List.mem_cons, List.not_mem_nil, or_false, not_or] at h
  obtain ⟨h1, h2, h3, h4, h5, h6⟩ := h
  simp [scoreBeat, h1, h2, h3, h4, h5, h6]

lemma inPaletteB_iff (r : Regime) (fn : String) :
    inPaletteB r fn = true ↔ fn ∈ paletteUnion r := by
  simp [inPaletteB, paletteUnion, Bool.or_eq_true, contains_iff_mem, List.mem_append, or_assoc]

lemma binValue_isSome {bl : List Bin} (h : bl ≠ []) (v : ℚ) :
    (binValue bl v).isSome = true := by
  unfold binValue
  cases hf : bl.find? (fun b => decide (v ≤ b.max)) with
  | some b => rfl
  | none => simp [List.getLast?_isSome, h]

lemma mapM_isSome {α β : Type} (f : α → Option β) :
    ∀ l : List α, (∀ x ∈ l, (f x).isSome = true) → (l.mapM f).isSome = true := by
  intro l
  induction l with
  | nil => intro _; rfl
  | cons x xs ih =>
    intro h
    rw [List.mapM_cons]
    obtain ⟨b, hb⟩ := Option.isSome_iff_exists.1 (h x (List.mem_cons_self _ _))
    have hxs := ih (fun y hy => h y (List.mem_cons_of_mem _ hy))
    obtain ⟨bs, hbs⟩ := Option.isSome_iff_exists.1 hxs
    rw [hb, hbs]
    rfl

lemma optionBindIsSome {α β : Type} (m : Option α) (f : α → Option β) (v : α)
    (hm : m = some v) (hf : (f v).isSome = true) : (m >>= f).isSome = true := by
  rw [hm]
  exact hf

lemma channelFold_isSome (rows : List RowT) (win : Int) (bins : List (String × List Bin))
    (r : RowT) (idx : Nat) :
    ∀ (chs : List String)
      (acc : List (String × String) × List (String × ℚ) × List (String × ℚ)),
      (∀ ch ∈ chs, ∃ bl, bins.lookup ch = some bl ∧ bl ≠ []) →
      ((chs.foldlM
        (fun (acc : List (String × String) × List (String × ℚ) × List (String × ℚ))
             (ch : String) => do
          let bl ← bins.lookup ch
          let bid ← binValue bl (toQ0 (jsGet r ch))
          let roll := rolling rows idx win ch
          pure (acc.1 ++ [(ch, bid)], acc.2.1 ++ [(ch, roll.2.2)], acc.2.2 ++ [(ch, roll.2.1)]))
        acc).isSome) = true := by
  intro chs
  induction chs with
  | nil => intro acc _; rfl
  | cons ch cs ih =>
    intro acc h
    rw [List.foldlM_cons]
    obtain ⟨bl, hbl, hne⟩ := h ch (List.mem_cons_self _ _)
    obtain ⟨bid, hbid⟩ :=
      Option.isSome_iff_exists.1 (binValue_isSome hne (toQ0 (jsGet r ch)))
    refine optionBindIsSome _ _
      (acc.1 ++ [(ch, bid)], acc.2.1 ++ [(ch, (rolling rows idx win ch).2.2)],
        acc.2.2 ++ [(ch, (rolling rows idx win ch).2.1)]) ?_ ?_
    · show (bins.lookup ch >>= fun bl =>
        binValue bl (toQ0 (jsGet r ch)) >>= fun bid =>
          pure (acc.1 ++ [(ch, bid)], acc.2.1 ++ [(ch, (rolling rows idx win ch).2.2)],
            acc.2.2 ++ [(ch, (rolling rows idx win ch).2.1)])) = _
      rw [hbl]
      show (binValue bl (toQ0 (jsGet r ch)) >>= fun bid =>
          pure (acc.1 ++ [(ch, bid)], acc.2.1 ++ [(ch, (rolling rows idx win ch).2.2)],
            acc.2.2 ++ [(ch, (rolling rows idx win ch).2.1)])) = _
      rw [hbid]
      rfl
    · exact ih _ (fun c hc => h c (List.mem_cons_of_mem _ hc))

lemma channelData_isSome (rows : List RowT) (win : Int) (cb : Codebook) (idx : Nat) (r : RowT)
    (h : ∀ ch ∈ cb.channels, ∃ bl, cb.bins.lookup ch = some bl ∧ bl ≠ []) :
    (channelData rows win cb idx r).isSome = true :=
  channelFold_isSome rows win cb.bins r idx cb.channels ([], [], []) h

lemma normalizeWeights_eq (w : Weights) :
    normalizeWeights w =
      if sumWeights w ≤ 0 then uniformWeights
      else ⟨w.horror / sumWeights w, w.trickster / sumWeights w, w.thriller / sumWeights w,
            w.fairytale / sumWeights w, w.shamanic / sumWeights w⟩ := rfl

lemma sumWeights_normalize (w : Weights) : sumWeights (normalizeWeights w) = 1 := by
  rw [normalizeWeights_eq]
  by_cases hs : sumWeights w ≤ 0
  · rw [if_pos hs]
    norm_num [sumWeights, uniformWeights]
  · rw [if_neg hs]
    have hne : sumWeights w ≠ 0 := by
      intro h0
      exact hs (le_of_eq h0)
    show w.horror / sumWeights w + w.trickster / sumWeights w + w.thriller / sumWeights w +
      w.fairytale / sumWeights w + w.shamanic / sumWeights w = 1
    rw [div_add_div_same, div_add_div_same, div_add_div_same, div_add_div_same]
    exact div_self hne

/-- C1 counterexample: the claim asserts the planner can emit a beat
outside the active regime's palette; in fact every beat the planner emits
lies in the active regime's palette, because the candidate pool is built
from that palette alone — the negation of the claimed palette-crossing. -/
theorem C1_planner_stays_in_palette :
    (∃ (r : Regime) (s : St) (t rec' : List String) (w : Nat) (fn : String),
      fn ∈ (chooseBeatsPlanned r s t rec' w).1 ∧ inPaletteB r fn = false) = False := by
  apply eq_false
  rintro ⟨r, s, t, rec', w, fn, hmem, hpal⟩
  have hin := (inPaletteB_iff r fn).2 ((chooseBeatsPlanned_spec r s t rec' w).2 fn hmem).1
  rw [hin] at hpal
  simp at hpal

/-- C1 (amended): beat scoring gives base 1.0 to a beat of the active
regime's palette and 0.2 otherwise (exactly, for beats without hard-coded
bonuses; as a never-zero lower bound in general) — but the planner's
candidate pool is exactly the regime's own palette, so every emitted beat
is in-palette and the 0.2 foreign branch is unreachable from the planner. -/
theorem C1_scoring_base_and_pool :
    (∀ (r : Regime) (s : St) (fn : String), fn ∉ bonusIds →
      scoreBeat fn r s = if inPaletteB r fn then (1 : ℚ) else 1/5)
    ∧ (∀ (r : Regime) (s : St) (fn : String),
      (if inPaletteB r fn then (1 : ℚ) else 1/5) ≤ scoreBeat fn r s)
    ∧ (∀ (r : Regime) (s : St) (fn : String), 0 < scoreBeat fn r s)
    ∧ (∀ (r : Regime) (s : St) (t rec' : List String) (w : Nat) (fn : String),
      fn ∈ (chooseBeatsPlanned r s t rec' w).1 → fn ∈ paletteUnion r) :=
  ⟨fun r s fn h => scoreBeat_base fn r s h,
   fun r s fn => scoreBeat_ge_base fn r s,
   fun r s fn => scoreBeat_pos fn r s,
   fun r s t rec' w fn hfn => ((chooseBeatsPlanned_spec r s t rec' w).2 fn hfn).1⟩

/-- Witness for C1: a beat with no hard-coded bonus scores exactly the
in-palette base 1.0. -/
theorem C1_scoring_base_and_pool_witness :
    "fn.noise_far" ∉ bonusIds ∧ scoreBeat "fn.noise_far" Regime.horror emptySt = 1 :=
  ⟨by decide,
   by rw [C1_scoring_base_and_pool.1 Regime.horror emptySt "fn.noise_far" (by decide)]; decide⟩

/-- C2: the claim says an empty or whitespace-only CSV is reported as a
"no data" precondition failure with no narrative produced; in fact
`parseCSV` turns empty text into a single `{value: 0}` row, the engaged
filter strips it to one empty row, the non-empty row list defeats the
guard, and the run proceeds, producing at least the anchor, call and
return lines with the opening anchor first. -/
theorem C2_empty_input_runs :
    appRows "" geologyEngaged = [[]]
    ∧ appRows " \n  " geologyEngaged = [[]]
    ∧ (onGenerate "" geologyEngaged geologyCodebook).isSome = true
    ∧ ((onGenerate "" geologyEngaged geologyCodebook).getD []).head? = some openingLine
    ∧ 4 ≤ ((onGenerate "" geologyEngaged geologyCodebook).getD []).length := by
  refine ⟨by decide, by decide, ?_, ?_, ?_⟩ <;> decide

/-- C3 counterexample: with channel "x" tracked but absent from `bins`,
`computeStates` fails (the source throws a `TypeError` in `binValue`)
rather than leaving the channel's fields absent from the state. -/
theorem C3_missing_bins_throws :
    computeStates [[("x", JSVal.num 1)]] c3Codebook = none := by
  decide

/-- C3 (amended): `computeStates` is not total for every well-formed
codebook — a tracked channel absent from `bins` (or with an empty bin
list) makes it throw; it is total whenever every tracked channel has a
non-empty bin list (channels absent from `ncv` are harmless). -/
theorem C3_total_when_bins_present :
    ∀ (rows : List RowT) (cb : Codebook),
      (∀ ch ∈ cb.channels, ∃ bl, cb.bins.lookup ch = some bl ∧ bl ≠ []) →
      (computeStates rows cb).isSome = true := by
  intro rows cb h
  unfold computeStates
  apply mapM_isSome
  intro p _
  obtain ⟨cd, hcd⟩ := Option.isSome_iff_exists.1
    (channelData_isSome rows cb.windows.trend cb p.1 p.2 h)
  exact optionBindIsSome _ _ cd hcd rfl

/-- Witness for C3: the modelled geology codebook has a non-empty bin list
for every tracked channel, so state derivation succeeds on the sample. -/
theorem C3_total_when_bins_present_witness :
    (∀ ch ∈ geologyCodebook.channels,
      ∃ bl, geologyCodebook.bins.lookup ch = some bl ∧ bl ≠ []) ∧
    (computeStates (appRows geologySampleCSV geologyEngaged) geologyCodebook).isSome = true :=
  ⟨by decide,
   C3_total_when_bins_present (appRows geologySampleCSV geologyEngaged) geologyCodebook
     (by decide)⟩

/-- C4 counterexample: the claim asserts that for some input a beat whose
preconditions are granted only by an earlier beat of the same step is
emitted in that step; in fact every beat the planner emits was already
feasible against the token set as it stood when the step began, because
the feasibility filter runs once before the emission loop — the negation
of the claimed same-step enablement. -/
theorem C4_emitted_feasible_at_entry :
    (∃ (r : Regime) (s : St) (t rec' : List String) (w : Nat) (fn : String),
      fn ∈ (chooseBeatsPlanned r s t rec' w).1 ∧
        hasAll t (beatRule fn).needs = false) = False := by
  apply eq_false
  rintro ⟨r, s, t, rec', w, fn, hmem, hfeas⟩
  have hok := ((chooseBeatsPlanned_spec r s t rec' w).2 fn hmem).2
  rw [hok] at hfeas
  simp at hfeas

/-- C4 (amended): emitting a beat does apply its effect tokens to the
shared token set within the step (the returned set is the entry set plus
the gives of the emitted beats, in order), but feasibility is decided once
at step entry, so no beat is emitted whose preconditions hold only thanks
to an earlier beat of the same step. -/
theorem C4_effects_immediate_feasibility_fixed :
    (∀ (r : Regime) (s : St) (t rec' : List String) (w : Nat),
      (chooseBeatsPlanned r s t rec' w).2 =
        applyGivesList t (chooseBeatsPlanned r s t rec' w).1)
    ∧ (∀ (r : Regime) (s : St) (t rec' : List String) (w : Nat) (fn : String),
      fn ∈ (chooseBeatsPlanned r s t rec' w).1 →
        hasAll t (beatRule fn).needs = true) :=
  ⟨fun r s t rec' w => (chooseBeatsPlanned_spec r s t rec' w).1,
   fun r s t rec' w fn hfn => ((chooseBeatsPlanned_spec r s t rec' w).2 fn hfn).2⟩

/-- Witness for C4: in a concrete step the emitted beat `fn.trail_cut` was
feasible against the entry token set. -/
theorem C4_effects_immediate_feasibility_fixed_witness :
    "fn.trail_cut" ∈ (chooseBeatsPlanned Regime.fairytale emptySt ["left_road"] [] 3).1 ∧
    hasAll ["left_road"] (beatRule "fn.trail_cut").needs = true :=
  ⟨by decide,
   C4_effects_immediate_feasibility_fixed.2 Regime.fairytale emptySt ["left_road"] [] 3
     "fn.trail_cut" (by decide)⟩

/-- C5: in every generated run (any side-quest parameters, states, and the
seeded initial loop state), a beat needing token `t` appears in the emitted
beat sequence only after `t` was seeded initially or granted by an earlier
emitted beat; and the token set only ever grows (the set after any loop
segment is the entry set with tokens appended, never removed). -/
theorem C5_token_gating_monotone :
    (∀ (cb : Codebook) (a b : Nat) (p : List SQNode) (states : List St)
      (pre : List String) (bb : String) (post : List String),
      ((genLoop cb a b p 0 states initGen).1.flatMap StepLog.beats) = pre ++ bb :: post →
      ∀ t ∈ (beatRule bb).needs,
        t ∈ initGen.tokens ∨ ∃ b', b' ∈ pre ∧ t ∈ (beatRule b').gives)
    ∧ (∀ (cb : Codebook) (a b : Nat) (p : List SQNode) (states : List St) (i : Nat)
      (g : GenSt), ∃ u, (genLoop cb a b p i states g).2.tokens = g.tokens ++ u) :=
  ⟨fun cb a b p states pre bb post h t ht =>
    genLoop_gating cb a b p states 0 initGen pre bb post h t ht,
   fun cb a b p states i g => genLoop_tokens_grow cb a b p states i g⟩

/-- Witness for C5: in a one-step run the first emitted beat needs
`left_road`, which is in the seeded token set. -/
theorem C5_token_gating_monotone_witness :
    ((genLoop geologyCodebook 0 0 [] 0 [emptySt] initGen).1.flatMap StepLog.beats =
      [] ++ "fn.trail_cut" :: ["fn.road_walk", "fn.feast_smell"])
    ∧ "left_road" ∈ (beatRule "fn.trail_cut").needs
    ∧ ("left_road" ∈ initGen.tokens ∨
        ∃ b', b' ∈ ([] : List String) ∧ "left_road" ∈ (beatRule b').gives) :=
  ⟨by decide, by decide,
   C5_token_gating_monotone.1 geologyCodebook 0 0 [] [emptySt] [] "fn.trail_cut"
     ["fn.road_walk", "fn.feast_smell"] (by decide) "left_road" (by decide)⟩

/-- C6 counterexample: a run in which step 1's and step 2's selected
regimes are both `trickster` (a self-transition of selected regimes), yet
step 2 inserts the `bargain_matures` bridge line — because the bridge was
looked up against step 2's classified regime (`fairytale`) before the
side-quest override forced it to `trickster`. -/
theorem C6_self_transition_with_bridge :
    ((genLogs ce6Codebook ce6States).get? 1).map StepLog.selected = some Regime.trickster
    ∧ ((genLogs ce6Codebook ce6States).get? 2).map StepLog.selected = some Regime.trickster
    ∧ ((genLogs ce6Codebook ce6States).get? 2).bind StepLog.bridgeLine =
        some "The trick they played earlier finds its balance; a basket sits waiting with their lost map inside." := by
  refine ⟨?_, ?_, ?_⟩ <;> decide

/-- C6 (amended): the bridge is keyed on the ordered pair (previous step's
selected regime, current step's classified regime before the side-quest
override): a self-pair yields no line, a listed pair yields exactly the
configured literal, placed before the step's beat lines; when the override
does not change the current regime this is the claimed behaviour, but on
override steps a selected-regime self-transition can carry a bridge line
and a listed selected pair can go without one. -/
theorem C6_bridge_rule :
    (∀ p n : Regime, p = n → allowedBridge p n = none)
    ∧ (∀ p n : Regime,
        ((allowedBridge p n).all fun bid => decide (((p, n), bid) ∈ ALLOWED_BRIDGES)) = true)
    ∧ (∀ (cb : Codebook) (a b : Nat) (sqp : List SQNode) (i : Nat) (s : St) (g : GenSt),
        (genStep cb a b sqp i s g).1.bridgeLine =
          (allowedBridge g.prevRegime (genStep cb a b sqp i s g).1.classified).map BRIDGE_FNS
        ∧ (g.prevRegime = (genStep cb a b sqp i s g).1.classified →
            (genStep cb a b sqp i s g).1.bridgeLine = none)
        ∧ stepLines (genStep cb a b sqp i s g).1 =
            ((genStep cb a b sqp i s g).1.bridgeLine).toList ++
            (genStep cb a b sqp i s g).1.beatLines ++
            (genStep cb a b sqp i s g).1.intentLines
        ∧ (genStep cb a b sqp i s g).2.prevRegime = (genStep cb a b sqp i s g).1.selected) := by
  refine ⟨?_, by decide, ?_⟩
  · intro p n h
    simp [allowedBridge, h]
  · intro cb a b sqp i s g
    refine ⟨rfl, ?_, rfl, rfl⟩
    intro h
    show (allowedBridge g.prevRegime (genStep cb a b sqp i s g).1.classified).map BRIDGE_FNS = none
    rw [← h]
    simp [allowedBridge]

/-- Witness for C6: a concrete step whose classified regime equals the
previous selected regime inserts no bridge line. -/
theorem C6_bridge_rule_witness :
    (GenSt.mk uniformWeights Regime.fairytale [] []).prevRegime =
      (genStep geologyCodebook 0 0 [] 0 emptySt
        (GenSt.mk uniformWeights Regime.fairytale [] [])).1.classified
    ∧ (genStep geologyCodebook 0 0 [] 0 emptySt
        (GenSt.mk uniformWeights Regime.fairytale [] [])).1.bridgeLine = none :=
  ⟨by decide,
   ((C6_bridge_rule.2.2 geologyCodebook 0 0 [] 0 emptySt
     (GenSt.mk uniformWeights Regime.fairytale [] [])).2.1) (by decide)⟩

/-- C7: every weight vector the classifier produces sums to 1: a zero-mass
input normalizes to the uniform 0.2 vector, a positive-mass input is
divided by its total; this holds for the instantaneous vector and for the
inertia-mixed running vector, so no produced vector is zero-sum (and the
division-by-zero branch that would make one NaN-valued is exactly the
guarded one). -/
theorem C7_weights_normalized :
    (∀ w : Weights, sumWeights (normalizeWeights w) = 1)
    ∧ (∀ w : Weights, sumWeights w = 0 → normalizeWeights w = uniformWeights)
    ∧ (∀ s : St, sumWeights (instantRegimeWeights s) = 1)
    ∧ (∀ (p n : Weights) (inertia : ℚ), sumWeights (mixWeights p n inertia) = 1) := by
  refine ⟨sumWeights_normalize, ?_, ?_, ?_⟩
  · intro w h
    rw [normalizeWeights_eq, if_pos (le_of_eq h)]
  · intro s
    exact sumWeights_normalize _
  · intro p n inertia
    exact sumWeights_normalize _

/-- Witness for C7: the all-zero contribution vector normalizes to the
uniform vector, which sums to 1. -/
theorem C7_weights_normalized_witness :
    sumWeights ⟨0, 0, 0, 0, 0⟩ = 0
    ∧ normalizeWeights ⟨0, 0, 0, 0, 0⟩ = uniformWeights
    ∧ sumWeights (normalizeWeights ⟨0, 0, 0, 0, 0⟩) = 1 :=
  ⟨by decide, C7_weights_normalized.2.1 ⟨0, 0, 0, 0, 0⟩
     (by decide),
   C7_weights_normalized.1 ⟨0, 0, 0, 0, 0⟩⟩

/-- C8: `computeStates` never reads `windows.variance` — two codebooks
differing only in that field derive identical states for every row
sequence (both rolling computations take the `windows.trend` value). -/
theorem C8_variance_window_unread :
    ∀ (rows : List RowT) (cb : Codebook) (v : Int),
      computeStates rows { cb with windows := ⟨cb.windows.trend, v⟩ } =
        computeStates rows cb := by
  intro rows cb v
  rfl

lemma genLogs_eq (cb : Codebook) (states : List St) :
    genLogs cb states =
      (genLoop cb (sqStartOf states.length) (sqEndOf states.length)
        (pickSideQuestPath (max 1 (sqEndOf states.length - sqStartOf states.length))
          ((states.drop (sqStartOf states.length)).take
            (sqEndOf states.length - sqStartOf states.length)))
        0 states initGen).1 := rfl

lemma genLoop_fst_step (cb : Codebook) (a b : Nat) (p : List SQNode) (i : Nat) (s : St)
    (rest : List St) (g : GenSt) (lg : StepLog) (g' : GenSt)
    (h : genStep cb a b p i s g = (lg, g')) :
    (genLoop cb a b p i (s :: rest) g).1 = lg :: (genLoop cb a b p (i + 1) rest g').1 := by
  show (genStep cb a b p i s g).1 ::
    (genLoop cb a b p (i + 1) rest (genStep cb a b p i s g).2).1 = _
  rw [h]

lemma geoStep0 : genStep geologyCodebook 0 5 geoPathLit 0 geoS0 initGen = (geoLog0, geoG1) := by
  decide

lemma geoStep1 : genStep geologyCodebook 0 5 geoPathLit 1 geoS1 geoG1 = (geoLog1, geoG2) := by
  decide

lemma geoStep2 : genStep geologyCodebook 0 5 geoPathLit 2 geoS2 geoG2 = (geoLog2, geoG3) := by
  decide

lemma geoStep3 : genStep geologyCodebook 0 5 geoPathLit 3 geoS3 geoG3 = (geoLog3, geoG4) := by
  decide

lemma geoStep4 : genStep geologyCodebook 0 5 geoPathLit 4 geoS4 geoG4 = (geoLog4, geoG5) := by
  decide

lemma geoStep5 : genStep geologyCodebook 0 5 geoPathLit 5 geoS5 geoG5 = (geoLog5, geoG6) := by
  decide

lemma geoStatesEval :
    computeStates (appRows geologySampleCSV geologyEngaged) geologyCodebook =
      some geoStatesLit := by
  decide

lemma geoPathEval :
    pickSideQuestPath (max 1 (5 - 0)) ((geoStatesLit.drop 0).take (5 - 0)) = geoPathLit := by
  decide

lemma geoLogsEval :
    genLogs geologyCodebook geoStatesLit =
      [geoLog0, geoLog1, geoLog2, geoLog3, geoLog4, geoLog5] := by
  rw [genLogs_eq]
  show (genLoop geologyCodebook 0 5
    (pickSideQuestPath (max 1 (5 - 0)) ((geoStatesLit.drop 0).take (5 - 0)))
    0 geoStatesLit initGen).1 = _
  rw [geoPathEval]
  show (genLoop geologyCodebook 0 5 geoPathLit 0
    (geoS0 :: [geoS1, geoS2, geoS3, geoS4, geoS5]) initGen).1 = _
  rw [genLoop_fst_step _ _ _ _ _ _ _ _ _ _ geoStep0,
      genLoop_fst_step _ _ _ _ _ _ _ _ _ _ geoStep1,
      genLoop_fst_step _ _ _ _ _ _ _ _ _ _ geoStep2,
      genLoop_fst_step _ _ _ _ _ _ _ _ _ _ geoStep3,
      genLoop_fst_step _ _ _ _ _ _ _ _ _ _ geoStep4,
      genLoop_fst_step _ _ _ _ _ _ _ _ _ _ geoStep5]
  rfl

lemma geoNarrativeEval : genNarrative geologyCodebook geoStatesLit = geoLines := by
  show [openingLine, callLine] ++
    (genLogs geologyCodebook geoStatesLit).flatMap stepLines ++ [returnLine, closingLine] =
    geoLines
  rw [geoLogsEval]
  decide

lemma onGenerateGeoEval :
    onGenerate geologySampleCSV geologyEngaged geologyCodebook = some geoLines := by
  show (if (appRows geologySampleCSV geologyEngaged).isEmpty then none
    else (computeStates (appRows geologySampleCSV geologyEngaged) geologyCodebook).map
      (genNarrative geologyCodebook)) = some geoLines
  rw [if_neg (by decide :
    ¬(appRows geologySampleCSV geologyEngaged).isEmpty = true)]
  rw [geoStatesEval]
  show some (genNarrative geologyCodebook geoStatesLit) = some geoLines
  rw [geoNarrativeEval]

/-- C9: over the reference geology 6-row sample table (with the codebook
and surface table modelled from the spec), the generated narrative starts
with the fixed opening anchor, ends with the fixed closing anchor, and
contains exactly one "call" line and exactly one "return" line. -/
theorem C9_geology_run_anchors :
    (onGenerate geologySampleCSV geologyEngaged geologyCodebook).isSome = true
    ∧ ((onGenerate geologySampleCSV geologyEngaged geologyCodebook).getD []).head? =
        some openingLine
    ∧ ((onGenerate geologySampleCSV geologyEngaged geologyCodebook).getD []).getLast? =
        some closingLine
    ∧ ((onGenerate geologySampleCSV geologyEngaged geologyCodebook).getD []).count callLine = 1
    ∧ ((onGenerate geologySampleCSV geologyEngaged geologyCodebook).getD []).count returnLine
        = 1 := by
  refine ⟨?_, ?_, ?_, ?_, ?_⟩ <;> rw [onGenerateGeoEval] <;> decide

/-- C10: the planner applies effect tokens at selection time (inside
`chooseBeatsPlanned`, before any surface resolution), the emission loop
appends every emitted beat to the rolling history (capped at 16, oldest
first) whether or not its surface text is empty, and the output lines are
exactly the non-empty surface texts — so a beat with an empty surface
advances the token set and history without a visible line. -/
theorem C10_selection_effects_independent_of_surface :
    (∀ (beats : List String) (ncv : NCVMap) (rec' : List String), rec'.length ≤ 16 →
      (emitLines beats ncv rec').2 = (rec' ++ beats).drop ((rec' ++ beats).length - 16))
    ∧ (∀ (beats : List String) (ncv : NCVMap) (rec' : List String),
      (emitLines beats ncv rec').1 =
        beats.filterMap (fun fn =>
          if pickSurfaceText fn ncv = "" then none else some (pickSurfaceText fn ncv)))
    ∧ (∀ (r : Regime) (s : St) (t rec' : List String) (w : Nat),
      (chooseBeatsPlanned r s t rec' w).2 =
        applyGivesList t (chooseBeatsPlanned r s t rec' w).1) :=
  ⟨emitLines_snd, emitLines_fst,
   fun r s t rec' w => (chooseBeatsPlanned_spec r s t rec' w).1⟩

/-- Witness for C10: a beat identifier with no surface text still lands in
the history while contributing no output line. -/
theorem C10_selection_effects_independent_of_surface_witness :
    ([] : List String).length ≤ 16
    ∧ (emitLines ["fn.x"] [] []).2 = (([] : List String) ++ ["fn.x"]).drop
        ((([] : List String) ++ ["fn.x"]).length - 16)
    ∧ (emitLines ["fn.x"] [] []).1 = [] :=
  ⟨by decide,
   C10_selection_effects_independent_of_surface.1 ["fn.x"] [] [] (by decide),
   by decide⟩

end Cageboard
